import Mathlib

set_option linter.unusedVariables false

/-!
Verification model of the Access Nature offline sync manager (the
`OfflineSync` class): an IndexedDB-backed structured store with three
collections (`pending_routes`, `pending_guides`, `email_queue`),
localStorage-backed flat queues for photos and surveys, connectivity
handling, and the `syncAllPending` orchestrator.

Remote effects (Firestore `addDoc`, Firebase Storage `uploadString`,
`emailjs.send`) are modelled by outcome oracles passed as parameters:
`some id` / `true` means the remote call returned successfully, `none` /
`false` means it threw.  Wall-clock timestamps (`new Date().toISOString()`)
are modelled as `Nat` values passed in as `now`.
-/

/-- A Firebase auth user as consumed by the sync manager
(`user?.uid`, `user?.email`, `user?.displayName`). -/
structure User where
  uid : String
  email : Option String
  displayName : Option String
deriving Repr, DecidableEq

/-- A record of the `pending_routes` / `pending_guides` object stores.
Mirrors the object literal built in `saveRoute` / `saveTrailGuide` plus the
fields added later by `markRouteUploaded` / `incrementRetryCount`.
`data` is the opaque artifact payload. -/
structure PendingRecord where
  localId : Nat
  data : Nat
  userId : String
  userEmail : Option String
  userName : String
  timestamp : Nat
  status : String
  retryCount : Nat
  cloudId : Option Nat
  uploadedAt : Option Nat
  lastRetryAt : Option Nat
deriving Repr, DecidableEq

/-- An entry of the `email_queue` object store, as built by
`queueEmailBackup` (`{type, data, timestamp, sent, retryCount}`), with the
`sentAt` field added by `markEmailSent`.  `data` is the opaque artifact
snapshot and `dataLocalId` the `localId` embedded in that snapshot. -/
structure EmailRecord where
  id : Nat
  type : String
  data : Nat
  dataLocalId : Nat
  timestamp : Nat
  sent : Bool
  retryCount : Nat
  sentAt : Option Nat
deriving Repr, DecidableEq

/-- The EmailJS relay configuration read from admin settings
(`getEmailJSConfig`).  Empty strings are the unconfigured defaults. -/
structure EmailJSConfig where
  serviceId : String
  templateId : String
  publicKey : String
deriving Repr, DecidableEq

/-- The state owned by the `OfflineSync` instance and its IndexedDB
database: the three object stores with their auto-increment counters, and
the in-process flags `isOnline`, `syncInProgress`, `emailJsLoaded`. -/
structure SyncState where
  pending_routes : List PendingRecord
  pending_guides : List PendingRecord
  email_queue : List EmailRecord
  nextRouteId : Nat
  nextGuideId : Nat
  nextEmailId : Nat
  isOnline : Bool
  syncInProgress : Bool
  emailJsLoaded : Bool
deriving Repr, DecidableEq

/-- Read-modify-write of the single record with the given key, as done by
the `store.get(localId)` / `store.put(record)` pairs: every record whose
`localId` matches is rewritten by `f` (the store's `keyPath` makes the key
unique, so at most one record matches in a well-formed store). -/
def updById (localId : Nat) (f : PendingRecord → PendingRecord) (l : List PendingRecord) : List PendingRecord :=
  l.map (fun r => if r.localId == localId then f r else r)

/-- The mutation `markRouteUploaded` / `markGuideUploaded` applies to the
fetched record: `status = 'uploaded'`, `cloudId`, `uploadedAt`. -/
def markUploadedFn (cloudId now : Nat) (r : PendingRecord) : PendingRecord :=
  { r with status := "uploaded", cloudId := some cloudId, uploadedAt := some now }

/-- `markRouteUploaded(localId, cloudId)`: fetch the route by key and, if
present, rewrite it as uploaded; resolves with no change if absent. -/
def markRouteUploaded (s : SyncState) (localId cloudId now : Nat) : SyncState :=
  { s with pending_routes := updById localId (markUploadedFn cloudId now) s.pending_routes }

/-- `markGuideUploaded(localId, cloudId)`: same as `markRouteUploaded` on
the `pending_guides` store. -/
def markGuideUploaded (s : SyncState) (localId cloudId now : Nat) : SyncState :=
  { s with pending_guides := updById localId (markUploadedFn cloudId now) s.pending_guides }

/-- The mutation `incrementRetryCount` applies to the fetched record:
`retryCount = (retryCount || 0) + 1` and `lastRetryAt`. -/
def bumpRetryFn (now : Nat) (r : PendingRecord) : PendingRecord :=
  { r with retryCount := r.retryCount + 1, lastRetryAt := some now }

/-- `incrementRetryCount(storeName, localId)`: fetch the record by key in
the named store and, if present, bump its retry count. -/
def incrementRetryCount (s : SyncState) (storeName : String) (localId now : Nat) : SyncState :=
  if storeName == "pending_routes" then
    { s with pending_routes := updById localId (bumpRetryFn now) s.pending_routes }
  else if storeName == "pending_guides" then
    { s with pending_guides := updById localId (bumpRetryFn now) s.pending_guides }
  else s

/-- `savePendingRoute(routeData)`: `store.add` assigns the auto-increment
key `localId` and appends the record; resolves with the new key. -/
def savePendingRoute (s : SyncState) (r : PendingRecord) : SyncState × Nat :=
  let localId := s.nextRouteId
  ({ s with pending_routes := s.pending_routes ++ [{ r with localId := localId }],
            nextRouteId := localId + 1 }, localId)

/-- `savePendingGuide(guideData)`: same as `savePendingRoute` on the
`pending_guides` store. -/
def savePendingGuide (s : SyncState) (r : PendingRecord) : SyncState × Nat :=
  let localId := s.nextGuideId
  ({ s with pending_guides := s.pending_guides ++ [{ r with localId := localId }],
            nextGuideId := localId + 1 }, localId)

/-- Key lookup in the `pending_routes` store (`store.get(localId)`). -/
def findRoute (s : SyncState) (localId : Nat) : Option PendingRecord :=
  s.pending_routes.find? (fun r => r.localId == localId)

/-- Key lookup in the `pending_guides` store. -/
def findGuide (s : SyncState) (localId : Nat) : Option PendingRecord :=
  s.pending_guides.find? (fun r => r.localId == localId)

/-- Key lookup in the `email_queue` store. -/
def findEmail (s : SyncState) (id : Nat) : Option EmailRecord :=
  s.email_queue.find? (fun e => e.id == id)

/-- Read-modify-write of a single `email_queue` record by key. -/
def updEmailById (id : Nat) (f : EmailRecord → EmailRecord) (l : List EmailRecord) : List EmailRecord :=
  l.map (fun e => if e.id == id then f e else e)

/-- `queueEmailBackup(type, data)`: adds an outbox entry with
`sent = false`, `retryCount = 0`; the store assigns the key. -/
def queueEmailBackup (s : SyncState) (type : String) (data : Nat) (dataLocalId : Nat) (now : Nat) : SyncState :=
  let id := s.nextEmailId
  { s with
      email_queue := s.email_queue ++
        [{ id := id, type := type, data := data, dataLocalId := dataLocalId,
           timestamp := now, sent := false, retryCount := 0, sentAt := none }],
      nextEmailId := id + 1 }

/-- `markEmailSent(id)`: fetch the entry by key and, if present, set
`sent = true` and `sentAt`; resolves with no change if absent. -/
def markEmailSent (s : SyncState) (id : Nat) (now : Nat) : SyncState :=
  { s with email_queue :=
      updEmailById id (fun e => { e with sent := true, sentAt := some now }) s.email_queue }

/-- `incrementEmailRetry(id)`: fetch the entry by key and, if present,
bump `retryCount = (retryCount || 0) + 1`. -/
def incrementEmailRetry (s : SyncState) (id : Nat) : SyncState :=
  { s with email_queue :=
      updEmailById id (fun e => { e with retryCount := e.retryCount + 1 }) s.email_queue }

/-- The configuration guard of `sendEmailBackup`:
`!config.publicKey || !config.serviceId || !config.templateId`
(an empty string is falsy in JS). -/
def configComplete (c : EmailJSConfig) : Bool :=
  !(c.publicKey == "") && !(c.serviceId == "") && !(c.templateId == "")

/-- `sendEmailBackup(emailItem)`: with incomplete configuration it logs and
returns without contacting the relay (`some []`, no invocation); otherwise
it calls `emailjs.send`, modelled by the oracle: `some [item.id]` when the
send resolved (one relay invocation), `none` when it threw. -/
def sendEmailBackup (cfg : EmailJSConfig) (em : Nat → Bool) (item : EmailRecord) : Option (List Nat) :=
  if !(configComplete cfg) then some []
  else if em item.id then some [item.id] else none

/-- One iteration of the `processEmailQueue` loop: entries at the retry cap
are skipped (`if (item.retryCount >= 3) continue`); otherwise the backup is
sent and the entry marked sent, or on a thrown send the retry count is
bumped.  The second component accumulates relay invocations. -/
def emailStep (cfg : EmailJSConfig) (em : Nat → Bool) (now : Nat)
    (acc : SyncState × List Nat) (item : EmailRecord) : SyncState × List Nat :=
  if item.retryCount ≥ 3 then acc
  else
    match sendEmailBackup cfg em item with
    | some sends => (markEmailSent acc.1 item.id now, acc.2 ++ sends)
    | none => (incrementEmailRetry acc.1 item.id, acc.2)

/-- `processEmailQueue()`: returns immediately unless the EmailJS library
is loaded and the device is online; otherwise snapshots the entries with
`sent = false` (the `sent` index query) and drains them one by one. -/
def processEmailQueue (s : SyncState) (cfg : EmailJSConfig) (em : Nat → Bool) (now : Nat) :
    SyncState × List Nat :=
  if !s.emailJsLoaded || !s.isOnline then (s, [])
  else List.foldl (emailStep cfg em now) (s, []) (s.email_queue.filter (fun e => !e.sent))

/-- The result value of `saveRoute` / `saveTrailGuide`:
`{ localId, cloudId }`. -/
structure SaveResult where
  localId : Nat
  cloudId : Option Nat
deriving Repr, DecidableEq

/-- The pending record literal built at the top of `saveRoute` /
`saveTrailGuide` (before the store assigns `localId`):
`userId = user?.uid || 'anonymous'`, `userEmail = user?.email || null`,
`userName = user?.displayName || 'Anonymous'`, `status = 'pending'`,
`retryCount = 0`, `cloudId = null`. -/
def mkPendingRecord (data : Nat) (user : Option User) (now : Nat) : PendingRecord :=
  { localId := 0, data := data,
    userId := (user.map User.uid).getD "anonymous",
    userEmail := user.bind User.email,
    userName := (user.bind User.displayName).getD "Anonymous",
    timestamp := now, status := "pending", retryCount := 0,
    cloudId := none, uploadedAt := none, lastRetryAt := none }

/-- `saveRoute(routeData, user)`: always saves locally first and queues an
email backup; when online with a signed-in user it attempts the inline
cloud upload (`upload` oracle: `some cloudId` means `addDoc` resolved,
`none` means it threw and was caught), marking the record uploaded and
returning early on success; every other path runs `processEmailQueue` and
returns `{ localId, cloudId: null }`. -/
def saveRoute (s : SyncState) (routeData : Nat) (user : Option User)
    (upload : Option Nat) (cfg : EmailJSConfig) (em : Nat → Bool) (now : Nat) :
    SyncState × SaveResult :=
  let p := savePendingRoute s (mkPendingRecord routeData user now)
  let s2 := queueEmailBackup p.1 "route" routeData p.2 now
  if s.isOnline && user.isSome then
    match upload with
    | some cloudId =>
        (markRouteUploaded s2 p.2 cloudId now, { localId := p.2, cloudId := some cloudId })
    | none =>
        ((processEmailQueue s2 cfg em now).1, { localId := p.2, cloudId := none })
  else
    ((processEmailQueue s2 cfg em now).1, { localId := p.2, cloudId := none })

/-- `saveTrailGuide(guideData, user)`: identical contract to `saveRoute`
on the `pending_guides` store. -/
def saveTrailGuide (s : SyncState) (guideData : Nat) (user : Option User)
    (upload : Option Nat) (cfg : EmailJSConfig) (em : Nat → Bool) (now : Nat) :
    SyncState × SaveResult :=
  let p := savePendingGuide s (mkPendingRecord guideData user now)
  let s2 := queueEmailBackup p.1 "guide" guideData p.2 now
  if s.isOnline && user.isSome then
    match upload with
    | some cloudId =>
        (markGuideUploaded s2 p.2 cloudId now, { localId := p.2, cloudId := some cloudId })
    | none =>
        ((processEmailQueue s2 cfg em now).1, { localId := p.2, cloudId := none })
  else
    ((processEmailQueue s2 cfg em now).1, { localId := p.2, cloudId := none })

/-- One remote operation performed during a sync pass: an attempted route
or guide upload (`addDoc`, with its outcome) or an email relay send. -/
inductive RemoteOp where
  | routeUpload (localId : Nat) (ok : Bool)
  | guideUpload (localId : Nat) (ok : Bool)
  | emailSend (id : Nat)
deriving Repr, DecidableEq

/-- Whether a remote operation is a successful artifact upload (used for
the `successCount` tally of `syncAllPending`). -/
def RemoteOp.isUploadSuccess : RemoteOp → Bool
  | .routeUpload _ ok => ok
  | .guideUpload _ ok => ok
  | .emailSend _ => false

/-- The aggregate signal `syncAllPending` reports to the console / toast
layer on each of its exit paths. -/
inductive SyncReport where
  | alreadyInProgress
  | offline
  | noUser
  | nothingPending
  | completed (successCount failCount : Nat)
deriving Repr, DecidableEq

/-- One iteration of the route loop of `syncAllPending`: attempt
`uploadRouteToCloud` (oracle `orR`); on success `markRouteUploaded`, on a
thrown upload `incrementRetryCount('pending_routes', ...)`.  The second
component records the attempt and its outcome. -/
def syncRouteStep (orR : Nat → Option Nat) (now : Nat)
    (acc : SyncState × List RemoteOp) (r : PendingRecord) : SyncState × List RemoteOp :=
  match orR r.localId with
  | some cloudId =>
      (markRouteUploaded acc.1 r.localId cloudId now, acc.2 ++ [RemoteOp.routeUpload r.localId true])
  | none =>
      (incrementRetryCount acc.1 "pending_routes" r.localId now, acc.2 ++ [RemoteOp.routeUpload r.localId false])

/-- One iteration of the guide loop of `syncAllPending`. -/
def syncGuideStep (orG : Nat → Option Nat) (now : Nat)
    (acc : SyncState × List RemoteOp) (g : PendingRecord) : SyncState × List RemoteOp :=
  match orG g.localId with
  | some cloudId =>
      (markGuideUploaded acc.1 g.localId cloudId now, acc.2 ++ [RemoteOp.guideUpload g.localId true])
  | none =>
      (incrementRetryCount acc.1 "pending_guides" g.localId now, acc.2 ++ [RemoteOp.guideUpload g.localId false])

/-- The `status === 'pending'` filter applied to a collection snapshot. -/
def pendingOnly (l : List PendingRecord) : List PendingRecord :=
  l.filter (fun r => r.status == "pending")

/-- `syncAllPending()`: no-op when `syncInProgress` is already set or the
device is offline; otherwise sets the flag, aborts (clearing the flag) when
no user is signed in or nothing is pending, and otherwise drains the
pending route and guide snapshots with per-item try/catch, processes the
email queue, and clears the flag.  Returns the final state, the reported
signal, and the list of remote operations performed. -/
def syncAllPending (s : SyncState) (user : Option User)
    (orR orG : Nat → Option Nat) (cfg : EmailJSConfig) (em : Nat → Bool) (now : Nat) :
    SyncState × SyncReport × List RemoteOp :=
  if s.syncInProgress then (s, SyncReport.alreadyInProgress, [])
  else if !s.isOnline then (s, SyncReport.offline, [])
  else
    let s1 : SyncState := { s with syncInProgress := true }
    match user with
    | none => ({ s1 with syncInProgress := false }, SyncReport.noUser, [])
    | some _ =>
      let pendingRoutes := pendingOnly s1.pending_routes
      let pendingGuides := pendingOnly s1.pending_guides
      if pendingRoutes.length + pendingGuides.length == 0 then
        ({ s1 with syncInProgress := false }, SyncReport.nothingPending, [])
      else
        let accR := List.foldl (syncRouteStep orR now) (s1, []) pendingRoutes
        let accG := List.foldl (syncGuideStep orG now) accR pendingGuides
        let emailRes := processEmailQueue accG.1 cfg em now
        let successCount := accG.2.countP RemoteOp.isUploadSuccess
        let failCount := accG.2.countP (fun o => !o.isUploadSuccess)
        ({ emailRes.1 with syncInProgress := false },
         SyncReport.completed successCount failCount,
         accG.2 ++ emailRes.2.map RemoteOp.emailSend)

/-- The states an executing `syncAllPending` pass is in at its cooperative
suspension points (each `await`), from the moment the pass sets
`syncInProgress` until just before the `finally` clears it: the flagged
entry state, the state after each processed route and guide, and the state
after the email-queue drain.  A concurrent second invocation observes one
of these states. -/
def syncAllTrace (s : SyncState) (user : Option User)
    (orR orG : Nat → Option Nat) (cfg : EmailJSConfig) (em : Nat → Bool) (now : Nat) :
    List SyncState :=
  if s.syncInProgress then []
  else if !s.isOnline then []
  else
    let s1 : SyncState := { s with syncInProgress := true }
    match user with
    | none => [s1]
    | some _ =>
      let pendingRoutes := pendingOnly s1.pending_routes
      let pendingGuides := pendingOnly s1.pending_guides
      if pendingRoutes.length + pendingGuides.length == 0 then [s1]
      else
        let traceR := List.scanl (syncRouteStep orR now) (s1, []) pendingRoutes
        let accR := List.foldl (syncRouteStep orR now) (s1, []) pendingRoutes
        let traceG := List.scanl (syncGuideStep orG now) accR pendingGuides
        let accG := List.foldl (syncGuideStep orG now) accR pendingGuides
        (traceR ++ traceG).map Prod.fst ++ [(processEmailQueue accG.1 cfg em now).1]

/-- An item of the localStorage photo queue (`accessNature_pendingPhotos`)
as built by `queuePhoto`: `status = 'pending'`, `retryCount = 0`, plus the
fields `downloadUrl` / `uploadedAt` added on a successful upload. -/
structure QueuedPhoto where
  id : String
  data : Nat
  fileName : String
  mimeType : String
  routeId : Option Nat
  timestamp : Nat
  status : String
  retryCount : Nat
  downloadUrl : Option Nat
  uploadedAt : Option Nat
deriving Repr, DecidableEq

/-- An item of the localStorage survey queue
(`accessNature_pendingSurveys`) as built by `queueSurvey`. -/
structure QueuedSurvey where
  id : String
  data : Nat
  routeId : Option Nat
  location : Option Nat
  timestamp : Nat
  status : String
  retryCount : Nat
  submittedAt : Option Nat
deriving Repr, DecidableEq

/-- The queued-photo literal built by `queuePhoto` (the `id` token is
process-generated from time plus a random suffix; it is a parameter
here). -/
def mkQueuedPhoto (id : String) (content : Nat) (fileName : String) (mimeType : String)
    (routeId : Option Nat) (now : Nat) : QueuedPhoto :=
  { id := id, data := content, fileName := fileName, mimeType := mimeType,
    routeId := routeId, timestamp := now, status := "pending", retryCount := 0,
    downloadUrl := none, uploadedAt := none }

/-- The queued-survey literal built by `queueSurvey`. -/
def mkQueuedSurvey (id : String) (data : Nat) (routeId : Option Nat) (location : Option Nat)
    (now : Nat) : QueuedSurvey :=
  { id := id, data := data, routeId := routeId, location := location,
    timestamp := now, status := "pending", retryCount := 0, submittedAt := none }

/-- The persistence step of `queuePhoto`: read the serialized queue, push
the new item, write the whole queue back. -/
def queuePhotoPersist (persisted : List QueuedPhoto) (p : QueuedPhoto) : List QueuedPhoto :=
  persisted ++ [p]

/-- The persistence step of `queueSurvey`. -/
def queueSurveyPersist (persisted : List QueuedSurvey) (sv : QueuedSurvey) : List QueuedSurvey :=
  persisted ++ [sv]

/-- One iteration of the `processPhotoQueue` loop: items already
`'uploaded'` are skipped (`continue`); for every other item the Storage
upload is attempted (oracle `orc`: `some url` resolved, `none` threw).  On
success the item becomes `'uploaded'` in place; on failure `retryCount`
is incremented and the item is marked `'failed'` once `retryCount >= 3`. -/
def processPhotoItem (orc : String → Option Nat) (now : Nat) (p : QueuedPhoto) : QueuedPhoto :=
  if p.status == "uploaded" then p
  else
    match orc p.id with
    | some url => { p with status := "uploaded", downloadUrl := some url, uploadedAt := some now }
    | none =>
        let rc := p.retryCount + 1
        { p with retryCount := rc, status := if rc ≥ 3 then "failed" else p.status }

/-- `processPhotoQueue()`: snapshots the persisted queue, attempts every
item not already `'uploaded'`, and writes the fully mutated snapshot back
once.  Returns the written-back queue and the ids of the items for which a
remote upload was attempted. -/
def processPhotoQueue (persisted : List QueuedPhoto) (orc : String → Option Nat) (now : Nat) :
    List QueuedPhoto × List String :=
  if persisted.isEmpty then (persisted, [])
  else
    (persisted.map (processPhotoItem orc now),
     (persisted.filter (fun p => !(p.status == "uploaded"))).map QueuedPhoto.id)

/-- The delayed cleanup scheduled at the end of `processPhotoQueue`: the
`setTimeout` callback closes over the drained snapshot array and writes
`snapshot.filter(p => p.status !== 'uploaded')` into the localStorage
slot, replacing whatever the slot holds when the timer fires (the current
slot content `persistedNow` is not consulted). -/
def prunePhotoTimerFires (snapshot : List QueuedPhoto) (persistedNow : List QueuedPhoto) :
    List QueuedPhoto :=
  snapshot.filter (fun p => !(p.status == "uploaded"))

/-- One iteration of the `processSurveyQueue` loop: items already
`'submitted'` are skipped; otherwise the Firestore write is attempted
(oracle `orc`: `true` resolved, `false` threw). -/
def processSurveyItem (orc : String → Bool) (now : Nat) (sv : QueuedSurvey) : QueuedSurvey :=
  if sv.status == "submitted" then sv
  else if orc sv.id then { sv with status := "submitted", submittedAt := some now }
  else
    let rc := sv.retryCount + 1
    { sv with retryCount := rc, status := if rc ≥ 3 then "failed" else sv.status }

/-- `processSurveyQueue()`: same drain shape as `processPhotoQueue` with
terminal status `'submitted'`. -/
def processSurveyQueue (persisted : List QueuedSurvey) (orc : String → Bool) (now : Nat) :
    List QueuedSurvey × List String :=
  if persisted.isEmpty then (persisted, [])
  else
    (persisted.map (processSurveyItem orc now),
     (persisted.filter (fun sv => !(sv.status == "submitted"))).map QueuedSurvey.id)

/-- The delayed cleanup scheduled at the end of `processSurveyQueue`. -/
def pruneSurveyTimerFires (snapshot : List QueuedSurvey) (persistedNow : List QueuedSurvey) :
    List QueuedSurvey :=
  snapshot.filter (fun sv => !(sv.status == "submitted"))

/-- An observable step taken by a connectivity handler
(`setupConnectivityListeners`): showing the pending banner, scheduling
`syncAllPending` via `setTimeout(..., delayMs)`, calling `syncAllPending`
directly, or calling `processEmailQueue`. -/
inductive TriggerAction where
  | showPendingNotification (count : Nat)
  | scheduleSyncAllAfter (delayMs : Nat)
  | syncAllNow
  | processEmailQueueNow
deriving Repr, DecidableEq

/-- The `window 'online'` push handler: with a nonzero pending count it
shows the banner and schedules an auto-sync after the 3000 ms settle
delay, then (always) processes the email queue. -/
def handleOnlineEvent (pendingCount : Nat) : List TriggerAction :=
  (if pendingCount > 0 then
    [TriggerAction.showPendingNotification pendingCount, TriggerAction.scheduleSyncAllAfter 3000]
  else []) ++ [TriggerAction.processEmailQueueNow]

/-- One tick of the 30-second connectivity poll: when `navigator.onLine`
flips from offline to online it shows the banner and awaits
`syncAllPending()` directly (no settle delay) for a nonzero pending count,
then processes the email queue; otherwise it does nothing. -/
def pollTick (wasOnline nowOnline : Bool) (pendingCount : Nat) : List TriggerAction :=
  if !wasOnline && nowOnline then
    (if pendingCount > 0 then
      [TriggerAction.showPendingNotification pendingCount, TriggerAction.syncAllNow]
    else []) ++ [TriggerAction.processEmailQueueNow]
  else []

/-- One invocation of a structured-store lifecycle operation, with the
outcomes of the remote calls it may make carried as oracles. -/
inductive Op where
  | saveRoute (data : Nat) (user : Option User) (upload : Option Nat)
      (cfg : EmailJSConfig) (em : Nat → Bool) (now : Nat)
  | saveTrailGuide (data : Nat) (user : Option User) (upload : Option Nat)
      (cfg : EmailJSConfig) (em : Nat → Bool) (now : Nat)
  | markRouteUploaded (localId cloudId now : Nat)
  | markGuideUploaded (localId cloudId now : Nat)
  | incrementRetryCount (storeName : String) (localId now : Nat)
  | syncAllPending (user : Option User) (orR orG : Nat → Option Nat)
      (cfg : EmailJSConfig) (em : Nat → Bool) (now : Nat)

/-- The state reached by running one lifecycle operation. -/
def applyOp (s : SyncState) : Op → SyncState
  | Op.saveRoute d u up cfg em now => (saveRoute s d u up cfg em now).1
  | Op.saveTrailGuide d u up cfg em now => (saveTrailGuide s d u up cfg em now).1
  | Op.markRouteUploaded localId cloudId now => markRouteUploaded s localId cloudId now
  | Op.markGuideUploaded localId cloudId now => markGuideUploaded s localId cloudId now
  | Op.incrementRetryCount st localId now => incrementRetryCount s st localId now
  | Op.syncAllPending u orR orG cfg em now => (syncAllPending s u orR orG cfg em now).1

/-- The state reached by running a sequence of lifecycle operations. -/
def applyOps (s : SyncState) (ops : List Op) : SyncState :=
  List.foldl applyOp s ops

/-- The per-record lifecycle invariant of the spec: exactly one of
`status = 'pending'` with `cloudId = null`, or `status = 'uploaded'` with
`cloudId` and `uploadedAt` both non-null. -/
def goodRecord (r : PendingRecord) : Bool :=
  ((r.status == "pending" && r.cloudId.isNone) ^^
   (r.status == "uploaded" && r.cloudId.isSome && r.uploadedAt.isSome))

/-- The lifecycle invariant over both artifact collections. -/
def stateInv (s : SyncState) : Bool :=
  s.pending_routes.all goodRecord && s.pending_guides.all goodRecord

/-- The empty, freshly opened database with the flags as set by the
constructor (online, no pass running, EmailJS not yet loaded). -/
def initialState : SyncState :=
  { pending_routes := [], pending_guides := [], email_queue := [],
    nextRouteId := 1, nextGuideId := 1, nextEmailId := 1,
    isOnline := true, syncInProgress := false, emailJsLoaded := false }

/-- A signed-in demo user. -/
def demoUser : User := { uid := "u1", email := some "u1@example.com", displayName := some "U One" }

/-- The unconfigured EmailJS defaults (all fields empty). -/
def cfg0 : EmailJSConfig := { serviceId := "", templateId := "", publicKey := "" }

/-- A fully configured EmailJS relay. -/
def cfgFull : EmailJSConfig := { serviceId := "svc", templateId := "tpl", publicKey := "key" }

/-- An upload oracle for which every remote write succeeds. -/
def orSome : Nat → Option Nat := fun n => some (n + 100)

/-- An upload oracle for which every remote write throws. -/
def orNone : Nat → Option Nat := fun _ => none

/-- A relay oracle for which every send resolves. -/
def emTrue : Nat → Bool := fun _ => true

/-- A concrete pending route record. -/
def demoRoute : PendingRecord := { mkPendingRecord 42 (some demoUser) 0 with localId := 1 }

/-- A demo state holding one pending route, online, no pass running. -/
def demoState : SyncState :=
  { initialState with
      pending_routes := [demoRoute],
      nextRouteId := 2, emailJsLoaded := true }

/-- `demoState` with a sync pass already running. -/
def flaggedState : SyncState := { demoState with syncInProgress := true }

/-- A photo-queue item that has exhausted its three retries. -/
def failedPhoto : QueuedPhoto :=
  { mkQueuedPhoto "photo_1" 5 "p.jpg" "image/jpeg" none 0 with status := "failed", retryCount := 3 }

/-- A survey-queue item that has exhausted its three retries. -/
def failedSurvey : QueuedSurvey :=
  { mkQueuedSurvey "survey_1" 6 none none 0 with status := "failed", retryCount := 3 }

/-- A fresh pending photo enqueued at time 0. -/
def photoA : QueuedPhoto := mkQueuedPhoto "photo_A" 1 "a.jpg" "image/jpeg" none 0

/-- A second pending photo, enqueued while the cleanup timer of an earlier
drain pass is still waiting to fire. -/
def photoB : QueuedPhoto := mkQueuedPhoto "photo_B" 2 "b.jpg" "image/jpeg" none 7

/-- The snapshot written back by a drain pass over `[photoA]` in which the
upload succeeded. -/
def c7DrainedSnapshot : List QueuedPhoto :=
  (processPhotoQueue (queuePhotoPersist [] photoA) (fun _ => some 11) 5).1

/-- The persisted queue after `photoB` is enqueued between the drain pass
and its delayed cleanup. -/
def c7PersistedBeforePrune : List QueuedPhoto := queuePhotoPersist c7DrainedSnapshot photoB

/-- The persisted queue after the delayed cleanup fires. -/
def c7PersistedAfterPrune : List QueuedPhoto :=
  prunePhotoTimerFires c7DrainedSnapshot c7PersistedBeforePrune

/-- A demo operation sequence: save a route offline-style with no user,
mark it uploaded by hand, then run a full sync pass. -/
def demoOps : List Op :=
  [Op.saveRoute 42 none none cfg0 emTrue 1,
   Op.markRouteUploaded 1 900 2,
   Op.saveTrailGuide 43 (some demoUser) none cfgFull emTrue 3,
   Op.syncAllPending (some demoUser) orSome orNone cfgFull emTrue 4,
   Op.incrementRetryCount "pending_guides" 1 5]

/-- The outbox entry literal created by `queueEmailBackup` (before the
store-assigned key is consumed by the caller). -/
def newEmailRecord (s : SyncState) (type : String) (data dataLocalId now : Nat) : EmailRecord :=
  { id := s.nextEmailId, type := type, data := data, dataLocalId := dataLocalId,
    timestamp := now, sent := false, retryCount := 0, sentAt := none }

/-- The empty store observed while the device is offline. -/
def offState : SyncState := { initialState with isOnline := false }

/-- A state with the EmailJS library loaded and one unsent outbox entry. -/
def emailDemoState : SyncState :=
  { initialState with
      emailJsLoaded := true,
      email_queue := [{ id := 1, type := "route", data := 42, dataLocalId := 1,
                        timestamp := 0, sent := false, retryCount := 0, sentAt := none }],
      nextEmailId := 2 }

theorem foldl_all_prop {α β : Type} (f : β → α → β) (P : β → Prop) (b : β) (l : List α)
    (hb : P b) (hf : ∀ x a, P x → P (f x a)) : P (List.foldl f b l) := by
  induction l generalizing b with
  | nil => exact hb
  | cons a t ih => exact ih (f b a) (hf b a hb)

theorem scanl_all_prop {α β : Type} (f : β → α → β) (P : β → Prop) (b : β) (l : List α)
    (hb : P b) (hf : ∀ x a, P x → P (f x a)) : ∀ y ∈ List.scanl f b l, P y := by
  induction l generalizing b with
  | nil =>
    intro y hy
    simp only [List.scanl] at hy
    simp only [List.mem_singleton] at hy
    exact hy ▸ hb
  | cons a t ih =>
    intro y hy
    simp only [List.scanl] at hy
    rcases List.mem_cons.mp hy with h | h
    · exact h ▸ hb
    · exact ih (f b a) (hf b a hb) y h

theorem updById_nomatch (localId : Nat) (f : PendingRecord → PendingRecord)
    (l : List PendingRecord) (h : ∀ r ∈ l, ¬ r.localId = localId) :
    updById localId f l = l := by
  induction l with
  | nil => rfl
  | cons a t ih =>
    have ha : (a.localId == localId) = false :=
      beq_eq_false_iff_ne.mpr (h a (List.mem_cons_self a t))
    simp only [updById, List.map_cons, ha, Bool.false_eq_true, if_false]
    have ht := ih (fun r hr => h r (List.mem_cons_of_mem a hr))
    simp only [updById] at ht
    rw [ht]

theorem find?_updById_ne (localId localId' : Nat) (f : PendingRecord → PendingRecord)
    (hf : ∀ r, (f r).localId = r.localId) (h : ¬ localId = localId') (l : List PendingRecord) :
    (updById localId f l).find? (fun r => r.localId == localId') =
      l.find? (fun r => r.localId == localId') := by
  induction l with
  | nil => rfl
  | cons a t ih =>
    simp only [updById, List.map_cons]
    by_cases hk : a.localId = localId
    · have h1 : (a.localId == localId) = true := beq_iff_eq.mpr hk
      have h2 : ((f a).localId == localId') = false := by
        rw [hf a]
        exact beq_eq_false_iff_ne.mpr (fun hc => h (hk ▸ hc))
      have h3 : (a.localId == localId') = false :=
        beq_eq_false_iff_ne.mpr (fun hc => h (hk ▸ hc))
      rw [if_pos h1,
          List.find?_cons_of_neg (p := fun (r : PendingRecord) => r.localId == localId') _
            (by simp [h2]),
          List.find?_cons_of_neg (p := fun (r : PendingRecord) => r.localId == localId') _
            (by simp [h3])]
      exact ih
    · have h1 : (a.localId == localId) = false := beq_eq_false_iff_ne.mpr hk
      rw [if_neg (by simp [h1])]
      by_cases hk' : a.localId = localId'
      · have h2 : (a.localId == localId') = true := beq_iff_eq.mpr hk'
        rw [List.find?_cons_of_pos (p := fun (r : PendingRecord) => r.localId == localId') _ h2,
            List.find?_cons_of_pos (p := fun (r : PendingRecord) => r.localId == localId') _ h2]
      · have h2 : (a.localId == localId') = false := beq_eq_false_iff_ne.mpr hk'
        rw [List.find?_cons_of_neg (p := fun (r : PendingRecord) => r.localId == localId') _
              (by simp [h2]),
            List.find?_cons_of_neg (p := fun (r : PendingRecord) => r.localId == localId') _
              (by simp [h2])]
        exact ih

theorem find?_updById_eq (localId : Nat) (f : PendingRecord → PendingRecord)
    (hf : ∀ r, (f r).localId = r.localId) (l : List PendingRecord) :
    (updById localId f l).find? (fun r => r.localId == localId) =
      (l.find? (fun r => r.localId == localId)).map f := by
  induction l with
  | nil => rfl
  | cons a t ih =>
    simp only [updById, List.map_cons]
    by_cases hk : a.localId = localId
    · have h1 : (a.localId == localId) = true := beq_iff_eq.mpr hk
      have h2 : ((f a).localId == localId) = true := by rw [hf a]; exact h1
      rw [if_pos h1, List.find?_cons_of_pos (p := fun (r : PendingRecord) => r.localId == localId) _ h2,
          List.find?_cons_of_pos (p := fun (r : PendingRecord) => r.localId == localId) _ h1]
      rfl
    · have h1 : (a.localId == localId) = false := beq_eq_false_iff_ne.mpr hk
      rw [if_neg (by simp [h1]),
          List.find?_cons_of_neg (p := fun (r : PendingRecord) => r.localId == localId) _
            (by simp [h1]),
          List.find?_cons_of_neg (p := fun (r : PendingRecord) => r.localId == localId) _
            (by simp [h1])]
      exact ih

theorem find?_pairwise_mem (l : List PendingRecord) (r : PendingRecord)
    (hpw : l.Pairwise (fun a b => ¬ a.localId = b.localId)) (hm : r ∈ l) :
    l.find? (fun a => a.localId == r.localId) = some r := by
  induction l with
  | nil => cases hm
  | cons a t ih =>
    rcases List.mem_cons.mp hm with rfl | hm'
    · exact List.find?_cons_of_pos (p := fun (a : PendingRecord) => a.localId == r.localId) _ (beq_iff_eq.mpr rfl)
    · have hne : ¬ a.localId = r.localId := (List.pairwise_cons.mp hpw).1 r hm'
      rw [List.find?_cons_of_neg (p := fun (a : PendingRecord) => a.localId == r.localId) _
        (by simp [hne])]
      exact ih (List.pairwise_cons.mp hpw).2 hm'

theorem updEmailById_nomatch (id : Nat) (f : EmailRecord → EmailRecord)
    (l : List EmailRecord) (h : ∀ e ∈ l, ¬ e.id = id) :
    updEmailById id f l = l := by
  induction l with
  | nil => rfl
  | cons a t ih =>
    have ha : (a.id == id) = false :=
      beq_eq_false_iff_ne.mpr (h a (List.mem_cons_self a t))
    simp only [updEmailById, List.map_cons, ha, Bool.false_eq_true, if_false]
    have ht := ih (fun e he => h e (List.mem_cons_of_mem a he))
    simp only [updEmailById] at ht
    rw [ht]

theorem find?_updEmailById_ne (id id' : Nat) (f : EmailRecord → EmailRecord)
    (hf : ∀ e, (f e).id = e.id) (h : ¬ id = id') (l : List EmailRecord) :
    (updEmailById id f l).find? (fun e => e.id == id') =
      l.find? (fun e => e.id == id') := by
  induction l with
  | nil => rfl
  | cons a t ih =>
    simp only [updEmailById, List.map_cons]
    by_cases hk : a.id = id
    · have h1 : (a.id == id) = true := beq_iff_eq.mpr hk
      have h2 : ((f a).id == id') = false := by
        rw [hf a]
        exact beq_eq_false_iff_ne.mpr (fun hc => h (hk ▸ hc))
      have h3 : (a.id == id') = false :=
        beq_eq_false_iff_ne.mpr (fun hc => h (hk ▸ hc))
      rw [if_pos h1,
          List.find?_cons_of_neg (p := fun (e : EmailRecord) => e.id == id') _ (by simp [h2]),
          List.find?_cons_of_neg (p := fun (e : EmailRecord) => e.id == id') _ (by simp [h3])]
      exact ih
    · have h1 : (a.id == id) = false := beq_eq_false_iff_ne.mpr hk
      rw [if_neg (by simp [h1])]
      by_cases hk' : a.id = id'
      · have h2 : (a.id == id') = true := beq_iff_eq.mpr hk'
        rw [List.find?_cons_of_pos (p := fun (e : EmailRecord) => e.id == id') _ h2,
            List.find?_cons_of_pos (p := fun (e : EmailRecord) => e.id == id') _ h2]
      · have h2 : (a.id == id') = false := beq_eq_false_iff_ne.mpr hk'
        rw [List.find?_cons_of_neg (p := fun (e : EmailRecord) => e.id == id') _ (by simp [h2]),
            List.find?_cons_of_neg (p := fun (e : EmailRecord) => e.id == id') _ (by simp [h2])]
        exact ih

theorem find?_updEmailById_eq (id : Nat) (f : EmailRecord → EmailRecord)
    (hf : ∀ e, (f e).id = e.id) (l : List EmailRecord) :
    (updEmailById id f l).find? (fun e => e.id == id) =
      (l.find? (fun e => e.id == id)).map f := by
  induction l with
  | nil => rfl
  | cons a t ih =>
    simp only [updEmailById, List.map_cons]
    by_cases hk : a.id = id
    · have h1 : (a.id == id) = true := beq_iff_eq.mpr hk
      have h2 : ((f a).id == id) = true := by rw [hf a]; exact h1
      rw [if_pos h1, List.find?_cons_of_pos (p := fun (e : EmailRecord) => e.id == id) _ h2,
          List.find?_cons_of_pos (p := fun (e : EmailRecord) => e.id == id) _ h1]
      rfl
    · have h1 : (a.id == id) = false := beq_eq_false_iff_ne.mpr hk
      rw [if_neg (by simp [h1]),
          List.find?_cons_of_neg (p := fun (e : EmailRecord) => e.id == id) _ (by simp [h1]),
          List.find?_cons_of_neg (p := fun (e : EmailRecord) => e.id == id) _ (by simp [h1])]
      exact ih

theorem find?_email_pairwise_mem (l : List EmailRecord) (e : EmailRecord)
    (hpw : l.Pairwise (fun a b => ¬ a.id = b.id)) (hm : e ∈ l) :
    l.find? (fun a => a.id == e.id) = some e := by
  induction l with
  | nil => cases hm
  | cons a t ih =>
    rcases List.mem_cons.mp hm with rfl | hm'
    · exact List.find?_cons_of_pos (p := fun (a : EmailRecord) => a.id == e.id) _ (beq_iff_eq.mpr rfl)
    · have hne : ¬ a.id = e.id := (List.pairwise_cons.mp hpw).1 e hm'
      rw [List.find?_cons_of_neg (p := fun (a : EmailRecord) => a.id == e.id) _ (by simp [hne])]
      exact ih (List.pairwise_cons.mp hpw).2 hm'

theorem email_mem_unique (l : List EmailRecord)
    (hpw : l.Pairwise (fun a b => ¬ a.id = b.id))
    (x y : EmailRecord) (hx : x ∈ l) (hy : y ∈ l) (hxy : x.id = y.id) : x = y := by
  induction l with
  | nil => cases hx
  | cons a t ih =>
    rcases List.mem_cons.mp hx with rfl | hx'
    · rcases List.mem_cons.mp hy with rfl | hy'
      · rfl
      · exact absurd hxy ((List.pairwise_cons.mp hpw).1 y hy')
    · rcases List.mem_cons.mp hy with rfl | hy'
      · exact absurd hxy.symm ((List.pairwise_cons.mp hpw).1 x hx')
      · exact ih (List.pairwise_cons.mp hpw).2 hx' hy'

theorem updEmailById_ids (id : Nat) (f : EmailRecord → EmailRecord) (hf : ∀ e, (f e).id = e.id)
    (l : List EmailRecord) : (updEmailById id f l).map EmailRecord.id = l.map EmailRecord.id := by
  induction l with
  | nil => rfl
  | cons a t ih =>
    simp only [updEmailById, List.map_cons, apply_ite EmailRecord.id, hf a, ite_self]
    simp only [updEmailById] at ih
    rw [ih]

theorem emailStep_find_ne (cfg : EmailJSConfig) (em : Nat → Bool) (now : Nat)
    (acc : SyncState × List Nat) (a : EmailRecord) (id : Nat) (hne : ¬ a.id = id) :
    findEmail (emailStep cfg em now acc a).1 id = findEmail acc.1 id := by
  unfold emailStep
  split
  · rfl
  · cases hs : sendEmailBackup cfg em a with
    | some sends =>
      show findEmail (markEmailSent acc.1 a.id now) id = findEmail acc.1 id
      unfold markEmailSent findEmail
      exact find?_updEmailById_ne a.id id
        (fun e => { e with sent := true, sentAt := some now }) (fun e => rfl) hne acc.1.email_queue
    | none =>
      show findEmail (incrementEmailRetry acc.1 a.id) id = findEmail acc.1 id
      unfold incrementEmailRetry findEmail
      exact find?_updEmailById_ne a.id id
        (fun e => { e with retryCount := e.retryCount + 1 }) (fun e => rfl) hne acc.1.email_queue

theorem emailFold_find_not_mem (cfg : EmailJSConfig) (em : Nat → Bool) (now : Nat)
    (l : List EmailRecord) (acc : SyncState × List Nat) (id : Nat)
    (h : ∀ e ∈ l, ¬ e.id = id) :
    findEmail (List.foldl (emailStep cfg em now) acc l).1 id = findEmail acc.1 id := by
  induction l generalizing acc with
  | nil => rfl
  | cons a t ih =>
    rw [List.foldl_cons, ih _ (fun e he => h e (List.mem_cons_of_mem a he)),
        emailStep_find_ne cfg em now acc a id (h a (List.mem_cons_self a t))]

theorem emailStep_fields (cfg : EmailJSConfig) (em : Nat → Bool) (now : Nat)
    (acc : SyncState × List Nat) (a : EmailRecord) :
    ((emailStep cfg em now acc a).1).pending_routes = acc.1.pending_routes ∧
    ((emailStep cfg em now acc a).1).pending_guides = acc.1.pending_guides ∧
    ((emailStep cfg em now acc a).1).syncInProgress = acc.1.syncInProgress ∧
    ((emailStep cfg em now acc a).1).isOnline = acc.1.isOnline ∧
    ((emailStep cfg em now acc a).1).emailJsLoaded = acc.1.emailJsLoaded ∧
    ((emailStep cfg em now acc a).1).email_queue.map EmailRecord.id =
      acc.1.email_queue.map EmailRecord.id := by
  unfold emailStep
  split
  · exact ⟨rfl, rfl, rfl, rfl, rfl, rfl⟩
  · cases hs : sendEmailBackup cfg em a with
    | some sends =>
      refine ⟨rfl, rfl, rfl, rfl, rfl, ?_⟩
      show ((markEmailSent acc.1 a.id now).email_queue).map EmailRecord.id =
        acc.1.email_queue.map EmailRecord.id
      exact updEmailById_ids a.id
        (fun e => { e with sent := true, sentAt := some now }) (fun e => rfl) acc.1.email_queue
    | none =>
      refine ⟨rfl, rfl, rfl, rfl, rfl, ?_⟩
      show ((incrementEmailRetry acc.1 a.id).email_queue).map EmailRecord.id =
        acc.1.email_queue.map EmailRecord.id
      exact updEmailById_ids a.id
        (fun e => { e with retryCount := e.retryCount + 1 }) (fun e => rfl) acc.1.email_queue

theorem emailFold_fields (cfg : EmailJSConfig) (em : Nat → Bool) (now : Nat)
    (l : List EmailRecord) (acc : SyncState × List Nat) :
    ((List.foldl (emailStep cfg em now) acc l).1).pending_routes = acc.1.pending_routes ∧
    ((List.foldl (emailStep cfg em now) acc l).1).pending_guides = acc.1.pending_guides ∧
    ((List.foldl (emailStep cfg em now) acc l).1).syncInProgress = acc.1.syncInProgress ∧
    ((List.foldl (emailStep cfg em now) acc l).1).isOnline = acc.1.isOnline ∧
    ((List.foldl (emailStep cfg em now) acc l).1).emailJsLoaded = acc.1.emailJsLoaded ∧
    ((List.foldl (emailStep cfg em now) acc l).1).email_queue.map EmailRecord.id =
      acc.1.email_queue.map EmailRecord.id := by
  apply foldl_all_prop (emailStep cfg em now)
    (fun x => x.1.pending_routes = acc.1.pending_routes ∧
      x.1.pending_guides = acc.1.pending_guides ∧
      x.1.syncInProgress = acc.1.syncInProgress ∧
      x.1.isOnline = acc.1.isOnline ∧
      x.1.emailJsLoaded = acc.1.emailJsLoaded ∧
      x.1.email_queue.map EmailRecord.id = acc.1.email_queue.map EmailRecord.id)
  · exact ⟨rfl, rfl, rfl, rfl, rfl, rfl⟩
  · intro x a hx
    obtain ⟨f1, f2, f3, f4, f5, f6⟩ := emailStep_fields cfg em now x a
    exact ⟨f1.trans hx.1, f2.trans hx.2.1, f3.trans hx.2.2.1, f4.trans hx.2.2.2.1,
           f5.trans hx.2.2.2.2.1, f6.trans hx.2.2.2.2.2⟩

theorem processEmailQueue_fields (s : SyncState) (cfg : EmailJSConfig) (em : Nat → Bool) (now : Nat) :
    ((processEmailQueue s cfg em now).1).pending_routes = s.pending_routes ∧
    ((processEmailQueue s cfg em now).1).pending_guides = s.pending_guides ∧
    ((processEmailQueue s cfg em now).1).syncInProgress = s.syncInProgress ∧
    ((processEmailQueue s cfg em now).1).isOnline = s.isOnline ∧
    ((processEmailQueue s cfg em now).1).emailJsLoaded = s.emailJsLoaded ∧
    ((processEmailQueue s cfg em now).1).email_queue.map EmailRecord.id =
      s.email_queue.map EmailRecord.id := by
  unfold processEmailQueue
  split
  · exact ⟨rfl, rfl, rfl, rfl, rfl, rfl⟩
  · exact emailFold_fields cfg em now _ _

theorem emailFold_marks (cfg : EmailJSConfig) (em : Nat → Bool) (now : Nat)
    (l : List EmailRecord) (acc : SyncState × List Nat) (e : EmailRecord) (sends : List Nat)
    (hm : e ∈ l) (hpw : l.Pairwise (fun a b => ¬ a.id = b.id))
    (hfind : findEmail acc.1 e.id = some e)
    (hrc : e.retryCount < 3)
    (hsend : sendEmailBackup cfg em e = some sends) :
    findEmail (List.foldl (emailStep cfg em now) acc l).1 e.id =
      some { e with sent := true, sentAt := some now } := by
  induction l generalizing acc with
  | nil => cases hm
  | cons a t ih =>
    rw [List.foldl_cons]
    rcases List.mem_cons.mp hm with rfl | hm'
    · have htail : ∀ x ∈ t, ¬ x.id = e.id := by
        intro x hx hc
        exact (List.pairwise_cons.mp hpw).1 x hx hc.symm
      rw [emailFold_find_not_mem cfg em now t _ e.id htail]
      show findEmail (emailStep cfg em now acc e).1 e.id = _
      unfold emailStep
      rw [if_neg (by omega), hsend]
      show findEmail (markEmailSent acc.1 e.id now) e.id = _
      unfold markEmailSent findEmail
      rw [find?_updEmailById_eq e.id
        (fun x => { x with sent := true, sentAt := some now }) (fun x => rfl) acc.1.email_queue]
      unfold findEmail at hfind
      rw [hfind]
      rfl
    · have hne : ¬ a.id = e.id := (List.pairwise_cons.mp hpw).1 e hm'
      apply ih _ hm' (List.pairwise_cons.mp hpw).2
      rw [emailStep_find_ne cfg em now acc a e.id hne]
      exact hfind

theorem emailStep_sends_mono (cfg : EmailJSConfig) (em : Nat → Bool) (now : Nat)
    (acc : SyncState × List Nat) (a : EmailRecord) (x : Nat) (hx : x ∈ acc.2) :
    x ∈ (emailStep cfg em now acc a).2 := by
  unfold emailStep
  split
  · exact hx
  · cases hs : sendEmailBackup cfg em a with
    | some sends => exact List.mem_append_left sends hx
    | none => exact hx

theorem emailFold_sends_mono (cfg : EmailJSConfig) (em : Nat → Bool) (now : Nat)
    (l : List EmailRecord) (acc : SyncState × List Nat) (x : Nat) (hx : x ∈ acc.2) :
    x ∈ (List.foldl (emailStep cfg em now) acc l).2 := by
  induction l generalizing acc with
  | nil => exact hx
  | cons a t ih =>
    rw [List.foldl_cons]
    exact ih _ (emailStep_sends_mono cfg em now acc a x hx)

theorem emailFold_sends_of_mem (cfg : EmailJSConfig) (em : Nat → Bool) (now : Nat)
    (l : List EmailRecord) (acc : SyncState × List Nat) (e : EmailRecord)
    (hm : e ∈ l) (hrc : e.retryCount < 3)
    (hsend : sendEmailBackup cfg em e = some [e.id]) :
    e.id ∈ (List.foldl (emailStep cfg em now) acc l).2 := by
  induction l generalizing acc with
  | nil => cases hm
  | cons a t ih =>
    rw [List.foldl_cons]
    rcases List.mem_cons.mp hm with rfl | hm'
    · apply emailFold_sends_mono
      show e.id ∈ (emailStep cfg em now acc e).2
      unfold emailStep
      rw [if_neg (by omega), hsend]
      exact List.mem_append_right acc.2 (List.mem_singleton.mpr rfl)
    · exact ih _ hm'

theorem emailStep_sends_cases (cfg : EmailJSConfig) (em : Nat → Bool) (now : Nat)
    (acc : SyncState × List Nat) (a : EmailRecord) (x : Nat)
    (hx : x ∈ (emailStep cfg em now acc a).2) : x ∈ acc.2 ∨ x = a.id := by
  unfold emailStep at hx
  split at hx
  · exact Or.inl hx
  · cases hs : sendEmailBackup cfg em a with
    | some sends =>
      rw [hs] at hx
      rcases List.mem_append.mp hx with h | h
      · exact Or.inl h
      · right
        unfold sendEmailBackup at hs
        split at hs
        · cases hs
          cases h
        · split at hs
          · cases hs
            rcases List.mem_singleton.mp h with rfl
            rfl
          · cases hs
    | none =>
      rw [hs] at hx
      exact Or.inl hx

theorem emailFold_sends_mem (cfg : EmailJSConfig) (em : Nat → Bool) (now : Nat)
    (l : List EmailRecord) (acc : SyncState × List Nat) (x : Nat)
    (hx : x ∈ (List.foldl (emailStep cfg em now) acc l).2) :
    x ∈ acc.2 ∨ ∃ e ∈ l, x = e.id := by
  induction l generalizing acc with
  | nil => exact Or.inl hx
  | cons a t ih =>
    rw [List.foldl_cons] at hx
    rcases ih _ hx with h | h
    · rcases emailStep_sends_cases cfg em now acc a x h with h' | h'
      · exact Or.inl h'
      · exact Or.inr ⟨a, List.mem_cons_self a t, h'⟩
    · obtain ⟨e, he, hxe⟩ := h
      exact Or.inr ⟨e, List.mem_cons_of_mem a he, hxe⟩

theorem emailFold_sends_incomplete (cfg : EmailJSConfig) (em : Nat → Bool) (now : Nat)
    (hcfg : configComplete cfg = false) (l : List EmailRecord) (acc : SyncState × List Nat) :
    (List.foldl (emailStep cfg em now) acc l).2 = acc.2 := by
  induction l generalizing acc with
  | nil => rfl
  | cons a t ih =>
    rw [List.foldl_cons, ih]
    unfold emailStep
    split
    · rfl
    · have hs : sendEmailBackup cfg em a = some [] := by
        unfold sendEmailBackup
        rw [if_pos (by rw [hcfg]; rfl)]
      rw [hs]
      exact List.append_nil acc.2

theorem incrementRetryCount_routes_def (s : SyncState) (localId now : Nat) :
    incrementRetryCount s "pending_routes" localId now =
      { s with pending_routes := updById localId (bumpRetryFn now) s.pending_routes } := by
  unfold incrementRetryCount
  rw [if_pos (by decide)]

theorem incrementRetryCount_guides_def (s : SyncState) (localId now : Nat) :
    incrementRetryCount s "pending_guides" localId now =
      { s with pending_guides := updById localId (bumpRetryFn now) s.pending_guides } := by
  unfold incrementRetryCount
  rw [if_neg (by decide), if_pos (by decide)]

theorem syncRouteStep_find_ne (orR : Nat → Option Nat) (now : Nat)
    (acc : SyncState × List RemoteOp) (r : PendingRecord) (id : Nat)
    (hne : ¬ r.localId = id) :
    findRoute (syncRouteStep orR now acc r).1 id = findRoute acc.1 id := by
  unfold syncRouteStep
  cases h : orR r.localId with
  | some c =>
    show findRoute (markRouteUploaded acc.1 r.localId c now) id = findRoute acc.1 id
    unfold markRouteUploaded findRoute
    exact find?_updById_ne r.localId id (markUploadedFn c now) (fun x => rfl) hne _
  | none =>
    show findRoute (incrementRetryCount acc.1 "pending_routes" r.localId now) id = findRoute acc.1 id
    rw [incrementRetryCount_routes_def]
    unfold findRoute
    exact find?_updById_ne r.localId id (bumpRetryFn now) (fun x => rfl) hne _

theorem syncRouteFold_find_not_mem (orR : Nat → Option Nat) (now : Nat)
    (l : List PendingRecord) (acc : SyncState × List RemoteOp) (id : Nat)
    (h : ∀ r ∈ l, ¬ r.localId = id) :
    findRoute (List.foldl (syncRouteStep orR now) acc l).1 id = findRoute acc.1 id := by
  induction l generalizing acc with
  | nil => rfl
  | cons a t ih =>
    rw [List.foldl_cons, ih _ (fun r hr => h r (List.mem_cons_of_mem a hr)),
        syncRouteStep_find_ne orR now acc a id (h a (List.mem_cons_self a t))]

theorem syncRouteFold_find_failed (orR : Nat → Option Nat) (now : Nat)
    (l : List PendingRecord) (acc : SyncState × List RemoteOp) (r : PendingRecord)
    (hm : r ∈ l) (hpw : l.Pairwise (fun a b => ¬ a.localId = b.localId))
    (hfind : findRoute acc.1 r.localId = some r) (hfail : orR r.localId = none) :
    findRoute (List.foldl (syncRouteStep orR now) acc l).1 r.localId =
      some (bumpRetryFn now r) := by
  induction l generalizing acc with
  | nil => cases hm
  | cons a t ih =>
    rw [List.foldl_cons]
    rcases List.mem_cons.mp hm with rfl | hm'
    · have htail : ∀ x ∈ t, ¬ x.localId = r.localId := by
        intro x hx hc
        exact (List.pairwise_cons.mp hpw).1 x hx hc.symm
      rw [syncRouteFold_find_not_mem orR now t _ r.localId htail]
      show findRoute (syncRouteStep orR now acc r).1 r.localId = _
      unfold syncRouteStep
      rw [hfail]
      show findRoute (incrementRetryCount acc.1 "pending_routes" r.localId now) r.localId = _
      rw [incrementRetryCount_routes_def]
      unfold findRoute
      rw [find?_updById_eq r.localId (bumpRetryFn now) (fun x => rfl) acc.1.pending_routes]
      unfold findRoute at hfind
      rw [hfind]
      rfl
    · have hne : ¬ a.localId = r.localId := (List.pairwise_cons.mp hpw).1 r hm'
      apply ih _ hm' (List.pairwise_cons.mp hpw).2
      rw [syncRouteStep_find_ne orR now acc a r.localId hne]
      exact hfind

theorem syncRouteStep_ops_mono (orR : Nat → Option Nat) (now : Nat)
    (acc : SyncState × List RemoteOp) (r : PendingRecord) (o : RemoteOp) (ho : o ∈ acc.2) :
    o ∈ (syncRouteStep orR now acc r).2 := by
  unfold syncRouteStep
  cases h : orR r.localId with
  | some c => exact List.mem_append_left _ ho
  | none => exact List.mem_append_left _ ho

theorem syncRouteFold_ops_mono (orR : Nat → Option Nat) (now : Nat)
    (l : List PendingRecord) (acc : SyncState × List RemoteOp) (o : RemoteOp) (ho : o ∈ acc.2) :
    o ∈ (List.foldl (syncRouteStep orR now) acc l).2 := by
  induction l generalizing acc with
  | nil => exact ho
  | cons a t ih =>
    rw [List.foldl_cons]
    exact ih _ (syncRouteStep_ops_mono orR now acc a o ho)

theorem syncRouteFold_ops_mem (orR : Nat → Option Nat) (now : Nat)
    (l : List PendingRecord) (acc : SyncState × List RemoteOp) (r : PendingRecord)
    (hm : r ∈ l) :
    RemoteOp.routeUpload r.localId (orR r.localId).isSome ∈
      (List.foldl (syncRouteStep orR now) acc l).2 := by
  induction l generalizing acc with
  | nil => cases hm
  | cons a t ih =>
    rw [List.foldl_cons]
    rcases List.mem_cons.mp hm with rfl | hm'
    · apply syncRouteFold_ops_mono
      unfold syncRouteStep
      cases h : orR r.localId with
      | some c => exact List.mem_append_right _ (List.mem_singleton.mpr rfl)
      | none => exact List.mem_append_right _ (List.mem_singleton.mpr rfl)
    · exact ih _ hm'

theorem syncGuideStep_find_ne (orG : Nat → Option Nat) (now : Nat)
    (acc : SyncState × List RemoteOp) (g : PendingRecord) (id : Nat)
    (hne : ¬ g.localId = id) :
    findGuide (syncGuideStep orG now acc g).1 id = findGuide acc.1 id := by
  unfold syncGuideStep
  cases h : orG g.localId with
  | some c =>
    show findGuide (markGuideUploaded acc.1 g.localId c now) id = findGuide acc.1 id
    unfold markGuideUploaded findGuide
    exact find?_updById_ne g.localId id (markUploadedFn c now) (fun x => rfl) hne _
  | none =>
    show findGuide (incrementRetryCount acc.1 "pending_guides" g.localId now) id = findGuide acc.1 id
    rw [incrementRetryCount_guides_def]
    unfold findGuide
    exact find?_updById_ne g.localId id (bumpRetryFn now) (fun x => rfl) hne _

theorem syncGuideFold_find_not_mem (orG : Nat → Option Nat) (now : Nat)
    (l : List PendingRecord) (acc : SyncState × List RemoteOp) (id : Nat)
    (h : ∀ g ∈ l, ¬ g.localId = id) :
    findGuide (List.foldl (syncGuideStep orG now) acc l).1 id = findGuide acc.1 id := by
  induction l generalizing acc with
  | nil => rfl
  | cons a t ih =>
    rw [List.foldl_cons, ih _ (fun g hg => h g (List.mem_cons_of_mem a hg)),
        syncGuideStep_find_ne orG now acc a id (h a (List.mem_cons_self a t))]

theorem syncGuideFold_find_failed (orG : Nat → Option Nat) (now : Nat)
    (l : List PendingRecord) (acc : SyncState × List RemoteOp) (g : PendingRecord)
    (hm : g ∈ l) (hpw : l.Pairwise (fun a b => ¬ a.localId = b.localId))
    (hfind : findGuide acc.1 g.localId = some g) (hfail : orG g.localId = none) :
    findGuide (List.foldl (syncGuideStep orG now) acc l).1 g.localId =
      some (bumpRetryFn now g) := by
  induction l generalizing acc with
  | nil => cases hm
  | cons a t ih =>
    rw [List.foldl_cons]
    rcases List.mem_cons.mp hm with rfl | hm'
    · have htail : ∀ x ∈ t, ¬ x.localId = g.localId := by
        intro x hx hc
        exact (List.pairwise_cons.mp hpw).1 x hx hc.symm
      rw [syncGuideFold_find_not_mem orG now t _ g.localId htail]
      show findGuide (syncGuideStep orG now acc g).1 g.localId = _
      unfold syncGuideStep
      rw [hfail]
      show findGuide (incrementRetryCount acc.1 "pending_guides" g.localId now) g.localId = _
      rw [incrementRetryCount_guides_def]
      unfold findGuide
      rw [find?_updById_eq g.localId (bumpRetryFn now) (fun x => rfl) acc.1.pending_guides]
      unfold findGuide at hfind
      rw [hfind]
      rfl
    · have hne : ¬ a.localId = g.localId := (List.pairwise_cons.mp hpw).1 g hm'
      apply ih _ hm' (List.pairwise_cons.mp hpw).2
      rw [syncGuideStep_find_ne orG now acc a g.localId hne]
      exact hfind

theorem syncGuideStep_ops_mono (orG : Nat → Option Nat) (now : Nat)
    (acc : SyncState × List RemoteOp) (g : PendingRecord) (o : RemoteOp) (ho : o ∈ acc.2) :
    o ∈ (syncGuideStep orG now acc g).2 := by
  unfold syncGuideStep
  cases h : orG g.localId with
  | some c => exact List.mem_append_left _ ho
  | none => exact List.mem_append_left _ ho

theorem syncGuideFold_ops_mono (orG : Nat → Option Nat) (now : Nat)
    (l : List PendingRecord) (acc : SyncState × List RemoteOp) (o : RemoteOp) (ho : o ∈ acc.2) :
    o ∈ (List.foldl (syncGuideStep orG now) acc l).2 := by
  induction l generalizing acc with
  | nil => exact ho
  | cons a t ih =>
    rw [List.foldl_cons]
    exact ih _ (syncGuideStep_ops_mono orG now acc a o ho)

theorem syncGuideFold_ops_mem (orG : Nat → Option Nat) (now : Nat)
    (l : List PendingRecord) (acc : SyncState × List RemoteOp) (g : PendingRecord)
    (hm : g ∈ l) :
    RemoteOp.guideUpload g.localId (orG g.localId).isSome ∈
      (List.foldl (syncGuideStep orG now) acc l).2 := by
  induction l generalizing acc with
  | nil => cases hm
  | cons a t ih =>
    rw [List.foldl_cons]
    rcases List.mem_cons.mp hm with rfl | hm'
    · apply syncGuideFold_ops_mono
      unfold syncGuideStep
      cases h : orG g.localId with
      | some c => exact List.mem_append_right _ (List.mem_singleton.mpr rfl)
      | none => exact List.mem_append_right _ (List.mem_singleton.mpr rfl)
    · exact ih _ hm'

theorem syncRouteStep_fields (orR : Nat → Option Nat) (now : Nat)
    (acc : SyncState × List RemoteOp) (r : PendingRecord) :
    ((syncRouteStep orR now acc r).1).pending_guides = acc.1.pending_guides ∧
    ((syncRouteStep orR now acc r).1).email_queue = acc.1.email_queue ∧
    ((syncRouteStep orR now acc r).1).syncInProgress = acc.1.syncInProgress ∧
    ((syncRouteStep orR now acc r).1).isOnline = acc.1.isOnline ∧
    ((syncRouteStep orR now acc r).1).emailJsLoaded = acc.1.emailJsLoaded := by
  unfold syncRouteStep
  cases h : orR r.localId with
  | some c => exact ⟨rfl, rfl, rfl, rfl, rfl⟩
  | none =>
    show ((incrementRetryCount acc.1 "pending_routes" r.localId now).pending_guides = _) ∧ _
    rw [incrementRetryCount_routes_def]
    exact ⟨rfl, rfl, rfl, rfl, rfl⟩

theorem syncGuideStep_fields (orG : Nat → Option Nat) (now : Nat)
    (acc : SyncState × List RemoteOp) (g : PendingRecord) :
    ((syncGuideStep orG now acc g).1).pending_routes = acc.1.pending_routes ∧
    ((syncGuideStep orG now acc g).1).email_queue = acc.1.email_queue ∧
    ((syncGuideStep orG now acc g).1).syncInProgress = acc.1.syncInProgress ∧
    ((syncGuideStep orG now acc g).1).isOnline = acc.1.isOnline ∧
    ((syncGuideStep orG now acc g).1).emailJsLoaded = acc.1.emailJsLoaded := by
  unfold syncGuideStep
  cases h : orG g.localId with
  | some c => exact ⟨rfl, rfl, rfl, rfl, rfl⟩
  | none =>
    show ((incrementRetryCount acc.1 "pending_guides" g.localId now).pending_routes = _) ∧ _
    rw [incrementRetryCount_guides_def]
    exact ⟨rfl, rfl, rfl, rfl, rfl⟩

theorem syncRouteFold_fields (orR : Nat → Option Nat) (now : Nat)
    (l : List PendingRecord) (acc : SyncState × List RemoteOp) :
    ((List.foldl (syncRouteStep orR now) acc l).1).pending_guides = acc.1.pending_guides ∧
    ((List.foldl (syncRouteStep orR now) acc l).1).email_queue = acc.1.email_queue ∧
    ((List.foldl (syncRouteStep orR now) acc l).1).syncInProgress = acc.1.syncInProgress ∧
    ((List.foldl (syncRouteStep orR now) acc l).1).isOnline = acc.1.isOnline ∧
    ((List.foldl (syncRouteStep orR now) acc l).1).emailJsLoaded = acc.1.emailJsLoaded := by
  apply foldl_all_prop (syncRouteStep orR now)
    (fun x => x.1.pending_guides = acc.1.pending_guides ∧
      x.1.email_queue = acc.1.email_queue ∧
      x.1.syncInProgress = acc.1.syncInProgress ∧
      x.1.isOnline = acc.1.isOnline ∧
      x.1.emailJsLoaded = acc.1.emailJsLoaded)
  · exact ⟨rfl, rfl, rfl, rfl, rfl⟩
  · intro x a hx
    obtain ⟨f1, f2, f3, f4, f5⟩ := syncRouteStep_fields orR now x a
    exact ⟨f1.trans hx.1, f2.trans hx.2.1, f3.trans hx.2.2.1, f4.trans hx.2.2.2.1,
           f5.trans hx.2.2.2.2⟩

theorem syncGuideFold_fields (orG : Nat → Option Nat) (now : Nat)
    (l : List PendingRecord) (acc : SyncState × List RemoteOp) :
    ((List.foldl (syncGuideStep orG now) acc l).1).pending_routes = acc.1.pending_routes ∧
    ((List.foldl (syncGuideStep orG now) acc l).1).email_queue = acc.1.email_queue ∧
    ((List.foldl (syncGuideStep orG now) acc l).1).syncInProgress = acc.1.syncInProgress ∧
    ((List.foldl (syncGuideStep orG now) acc l).1).isOnline = acc.1.isOnline ∧
    ((List.foldl (syncGuideStep orG now) acc l).1).emailJsLoaded = acc.1.emailJsLoaded := by
  apply foldl_all_prop (syncGuideStep orG now)
    (fun x => x.1.pending_routes = acc.1.pending_routes ∧
      x.1.email_queue = acc.1.email_queue ∧
      x.1.syncInProgress = acc.1.syncInProgress ∧
      x.1.isOnline = acc.1.isOnline ∧
      x.1.emailJsLoaded = acc.1.emailJsLoaded)
  · exact ⟨rfl, rfl, rfl, rfl, rfl⟩
  · intro x a hx
    obtain ⟨f1, f2, f3, f4, f5⟩ := syncGuideStep_fields orG now x a
    exact ⟨f1.trans hx.1, f2.trans hx.2.1, f3.trans hx.2.2.1, f4.trans hx.2.2.2.1,
           f5.trans hx.2.2.2.2⟩

theorem goodRecord_markUploadedFn (cloudId now : Nat) (r : PendingRecord) :
    goodRecord (markUploadedFn cloudId now r) = true := by
  simp [goodRecord, markUploadedFn]

theorem goodRecord_bumpRetryFn (now : Nat) (r : PendingRecord) :
    goodRecord (bumpRetryFn now r) = goodRecord r := rfl

theorem all_good_updById (localId : Nat) (f : PendingRecord → PendingRecord)
    (l : List PendingRecord)
    (hf : ∀ r, goodRecord r = true → goodRecord (f r) = true)
    (h : l.all goodRecord = true) : (updById localId f l).all goodRecord = true := by
  induction l with
  | nil => rfl
  | cons a t ih =>
    rw [List.all_cons, Bool.and_eq_true] at h
    simp only [updById, List.map_cons, List.all_cons, Bool.and_eq_true]
    refine ⟨?_, ?_⟩
    · by_cases hk : (a.localId == localId) = true
      · rw [if_pos hk]
        exact hf a h.1
      · rw [if_neg hk]
        exact h.1
    · exact ih h.2

theorem stateInv_split (s : SyncState) :
    stateInv s = true ↔
      (s.pending_routes.all goodRecord = true ∧ s.pending_guides.all goodRecord = true) := by
  unfold stateInv
  rw [Bool.and_eq_true]

theorem stateInv_markRouteUploaded (s : SyncState) (localId cloudId now : Nat)
    (h : stateInv s = true) : stateInv (markRouteUploaded s localId cloudId now) = true := by
  rcases (stateInv_split s).mp h with ⟨h1, h2⟩
  apply (stateInv_split _).mpr
  refine ⟨?_, h2⟩
  exact all_good_updById localId _ _ (fun r _ => goodRecord_markUploadedFn cloudId now r) h1

theorem stateInv_markGuideUploaded (s : SyncState) (localId cloudId now : Nat)
    (h : stateInv s = true) : stateInv (markGuideUploaded s localId cloudId now) = true := by
  rcases (stateInv_split s).mp h with ⟨h1, h2⟩
  apply (stateInv_split _).mpr
  refine ⟨h1, ?_⟩
  exact all_good_updById localId _ _ (fun r _ => goodRecord_markUploadedFn cloudId now r) h2

theorem stateInv_incrementRetryCount (s : SyncState) (storeName : String) (localId now : Nat)
    (h : stateInv s = true) : stateInv (incrementRetryCount s storeName localId now) = true := by
  rcases (stateInv_split s).mp h with ⟨h1, h2⟩
  unfold incrementRetryCount
  split
  · apply (stateInv_split _).mpr
    refine ⟨?_, h2⟩
    exact all_good_updById localId _ _ (fun r hr => (goodRecord_bumpRetryFn now r).trans hr) h1
  · split
    · apply (stateInv_split _).mpr
      refine ⟨h1, ?_⟩
      exact all_good_updById localId _ _ (fun r hr => (goodRecord_bumpRetryFn now r).trans hr) h2
    · exact h

theorem goodRecord_mkPendingRecord (data : Nat) (user : Option User) (now localId : Nat) :
    goodRecord { mkPendingRecord data user now with localId := localId } = true := by
  simp [goodRecord, mkPendingRecord]

theorem stateInv_savePendingRoute (s : SyncState) (r : PendingRecord)
    (h : stateInv s = true) (hr : goodRecord { r with localId := s.nextRouteId } = true) :
    stateInv (savePendingRoute s r).1 = true := by
  rcases (stateInv_split s).mp h with ⟨h1, h2⟩
  apply (stateInv_split _).mpr
  refine ⟨?_, h2⟩
  show (s.pending_routes ++ [{ r with localId := s.nextRouteId }]).all goodRecord = true
  rw [List.all_append, Bool.and_eq_true]
  exact ⟨h1, by simp [hr]⟩

theorem stateInv_savePendingGuide (s : SyncState) (r : PendingRecord)
    (h : stateInv s = true) (hr : goodRecord { r with localId := s.nextGuideId } = true) :
    stateInv (savePendingGuide s r).1 = true := by
  rcases (stateInv_split s).mp h with ⟨h1, h2⟩
  apply (stateInv_split _).mpr
  refine ⟨h1, ?_⟩
  show (s.pending_guides ++ [{ r with localId := s.nextGuideId }]).all goodRecord = true
  rw [List.all_append, Bool.and_eq_true]
  exact ⟨h2, by simp [hr]⟩

theorem stateInv_queueEmailBackup (s : SyncState) (type : String) (data dataLocalId now : Nat)
    (h : stateInv s = true) : stateInv (queueEmailBackup s type data dataLocalId now) = true := h

theorem stateInv_processEmailQueue (s : SyncState) (cfg : EmailJSConfig) (em : Nat → Bool)
    (now : Nat) (h : stateInv s = true) : stateInv (processEmailQueue s cfg em now).1 = true := by
  obtain ⟨h1, h2, _⟩ := processEmailQueue_fields s cfg em now
  unfold stateInv at *
  rw [h1, h2]
  exact h

theorem stateInv_saveRoute (s : SyncState) (d : Nat) (u : Option User) (up : Option Nat)
    (cfg : EmailJSConfig) (em : Nat → Bool) (now : Nat)
    (h : stateInv s = true) : stateInv (saveRoute s d u up cfg em now).1 = true := by
  have hq : stateInv (queueEmailBackup (savePendingRoute s (mkPendingRecord d u now)).1
      "route" d (savePendingRoute s (mkPendingRecord d u now)).2 now) = true :=
    stateInv_queueEmailBackup _ _ _ _ _
      (stateInv_savePendingRoute s _ h (goodRecord_mkPendingRecord d u now s.nextRouteId))
  unfold saveRoute
  split
  · cases up with
    | some c => exact stateInv_markRouteUploaded _ _ _ _ hq
    | none => exact stateInv_processEmailQueue _ _ _ _ hq
  · exact stateInv_processEmailQueue _ _ _ _ hq

theorem stateInv_saveTrailGuide (s : SyncState) (d : Nat) (u : Option User) (up : Option Nat)
    (cfg : EmailJSConfig) (em : Nat → Bool) (now : Nat)
    (h : stateInv s = true) : stateInv (saveTrailGuide s d u up cfg em now).1 = true := by
  have hq : stateInv (queueEmailBackup (savePendingGuide s (mkPendingRecord d u now)).1
      "guide" d (savePendingGuide s (mkPendingRecord d u now)).2 now) = true :=
    stateInv_queueEmailBackup _ _ _ _ _
      (stateInv_savePendingGuide s _ h (goodRecord_mkPendingRecord d u now s.nextGuideId))
  unfold saveTrailGuide
  split
  · cases up with
    | some c => exact stateInv_markGuideUploaded _ _ _ _ hq
    | none => exact stateInv_processEmailQueue _ _ _ _ hq
  · exact stateInv_processEmailQueue _ _ _ _ hq

theorem stateInv_syncRouteFold (orR : Nat → Option Nat) (now : Nat)
    (l : List PendingRecord) (acc : SyncState × List RemoteOp)
    (h : stateInv acc.1 = true) :
    stateInv (List.foldl (syncRouteStep orR now) acc l).1 = true := by
  apply foldl_all_prop (syncRouteStep orR now) (fun x => stateInv x.1 = true) acc l h
  intro x a hx
  unfold syncRouteStep
  cases hc : orR a.localId with
  | some c => exact stateInv_markRouteUploaded _ _ _ _ hx
  | none => exact stateInv_incrementRetryCount _ _ _ _ hx

theorem stateInv_syncGuideFold (orG : Nat → Option Nat) (now : Nat)
    (l : List PendingRecord) (acc : SyncState × List RemoteOp)
    (h : stateInv acc.1 = true) :
    stateInv (List.foldl (syncGuideStep orG now) acc l).1 = true := by
  apply foldl_all_prop (syncGuideStep orG now) (fun x => stateInv x.1 = true) acc l h
  intro x a hx
  unfold syncGuideStep
  cases hc : orG a.localId with
  | some c => exact stateInv_markGuideUploaded _ _ _ _ hx
  | none => exact stateInv_incrementRetryCount _ _ _ _ hx

theorem stateInv_flag (s : SyncState) (b : Bool) :
    stateInv { s with syncInProgress := b } = stateInv s := rfl

theorem stateInv_syncAllPending (s : SyncState) (u : Option User)
    (orR orG : Nat → Option Nat) (cfg : EmailJSConfig) (em : Nat → Bool) (now : Nat)
    (h : stateInv s = true) : stateInv (syncAllPending s u orR orG cfg em now).1 = true := by
  simp only [syncAllPending]
  split
  · exact h
  · split
    · exact h
    · cases u with
      | none => exact h
      | some u0 =>
        by_cases h3 :
          (((pendingOnly s.pending_routes).length + (pendingOnly s.pending_guides).length == 0) = true)
        · rw [if_pos h3]
          exact h
        · rw [if_neg h3]
          exact stateInv_processEmailQueue _ cfg em now
            (stateInv_syncGuideFold orG now _ _
              (stateInv_syncRouteFold orR now (pendingOnly s.pending_routes)
                ({ s with syncInProgress := true }, []) h))

theorem stateInv_applyOp (s : SyncState) (op : Op) (h : stateInv s = true) :
    stateInv (applyOp s op) = true := by
  cases op with
  | saveRoute d u up cfg em now => exact stateInv_saveRoute s d u up cfg em now h
  | saveTrailGuide d u up cfg em now => exact stateInv_saveTrailGuide s d u up cfg em now h
  | markRouteUploaded localId cloudId now => exact stateInv_markRouteUploaded s localId cloudId now h
  | markGuideUploaded localId cloudId now => exact stateInv_markGuideUploaded s localId cloudId now h
  | incrementRetryCount st localId now => exact stateInv_incrementRetryCount s st localId now h
  | syncAllPending u orR orG cfg em now => exact stateInv_syncAllPending s u orR orG cfg em now h

/-- Claim C1: for every route record in `pending_routes` and every guide
record in `pending_guides`, after any sequence of the operations
`saveRoute`/`saveTrailGuide`, `markRouteUploaded`/`markGuideUploaded`,
`incrementRetryCount`, and `syncAllPending`, exactly one of
`status = 'pending' ∧ cloudId = null` or
`status = 'uploaded' ∧ cloudId ≠ null ∧ uploadedAt ≠ null` holds
(`goodRecord` is that exclusive disjunction, `stateInv` its closure over
both collections). -/
theorem claim_c1_lifecycle_invariant (s : SyncState) (ops : List Op)
    (h : stateInv s = true) : stateInv (applyOps s ops) = true := by
  induction ops generalizing s with
  | nil => exact h
  | cons op t ih => exact ih _ (stateInv_applyOp s op h)

/-- Witness for C1 at the freshly opened store and a concrete operation
sequence. -/
theorem claim_c1_witness :
    stateInv initialState = true ∧ stateInv (applyOps initialState demoOps) = true :=
  ⟨by decide, claim_c1_lifecycle_invariant initialState demoOps (by decide)⟩

/-- Claim C10: calling `markRouteUploaded`, `markGuideUploaded`,
`incrementRetryCount`, `markEmailSent`, or `incrementEmailRetry` with an
identifier not present in the corresponding collection resolves
successfully (the operations are total and return a state) and leaves
every record in every collection unchanged — the state is returned
exactly as it was. -/
theorem claim_c10_missing_id_noop (s : SyncState) (localId cloudId now emailId : Nat)
    (hr : ∀ r ∈ s.pending_routes, ¬ r.localId = localId)
    (hg : ∀ g ∈ s.pending_guides, ¬ g.localId = localId)
    (he : ∀ e ∈ s.email_queue, ¬ e.id = emailId) :
    markRouteUploaded s localId cloudId now = s ∧
    markGuideUploaded s localId cloudId now = s ∧
    incrementRetryCount s "pending_routes" localId now = s ∧
    incrementRetryCount s "pending_guides" localId now = s ∧
    markEmailSent s emailId now = s ∧
    incrementEmailRetry s emailId = s := by
  refine ⟨?_, ?_, ?_, ?_, ?_, ?_⟩
  · unfold markRouteUploaded
    rw [updById_nomatch localId _ _ hr]
  · unfold markGuideUploaded
    rw [updById_nomatch localId _ _ hg]
  · rw [incrementRetryCount_routes_def, updById_nomatch localId _ _ hr]
  · rw [incrementRetryCount_guides_def, updById_nomatch localId _ _ hg]
  · unfold markEmailSent
    rw [updEmailById_nomatch emailId _ _ he]
  · unfold incrementEmailRetry
    rw [updEmailById_nomatch emailId _ _ he]

/-- Witness for C10 at a concrete state and absent keys. -/
theorem claim_c10_witness :
    markRouteUploaded demoState 99 5 6 = demoState ∧
    markGuideUploaded demoState 99 5 6 = demoState ∧
    incrementRetryCount demoState "pending_routes" 99 6 = demoState ∧
    incrementRetryCount demoState "pending_guides" 99 6 = demoState ∧
    markEmailSent demoState 99 6 = demoState ∧
    incrementEmailRetry demoState 99 = demoState :=
  claim_c10_missing_id_noop demoState 99 5 6 99 (by decide) (by decide) (by decide)

/-- Claim C4: `saveRoute` and `saveTrailGuide` invoked while offline
(`isOnline = false`) always succeed: they persist a local record with
`status = 'pending'`, `retryCount = 0`, `cloudId = null`, and return
`{ localId, cloudId: null }`; the result does not depend on the upload
oracle (quantified arbitrarily), so no remote-side failure is
caller-visible. -/
theorem claim_c4_save_offline (s : SyncState) (d g : Nat) (user : Option User)
    (upR upG : Option Nat) (cfg : EmailJSConfig) (em : Nat → Bool) (now : Nat)
    (hoff : s.isOnline = false) :
    (saveRoute s d user upR cfg em now).2 =
      { localId := s.nextRouteId, cloudId := none } ∧
    ((saveRoute s d user upR cfg em now).1).pending_routes =
      s.pending_routes ++ [{ mkPendingRecord d user now with localId := s.nextRouteId }] ∧
    (mkPendingRecord d user now).status = "pending" ∧
    (mkPendingRecord d user now).retryCount = 0 ∧
    (mkPendingRecord d user now).cloudId = none ∧
    (saveTrailGuide s g user upG cfg em now).2 =
      { localId := s.nextGuideId, cloudId := none } ∧
    ((saveTrailGuide s g user upG cfg em now).1).pending_guides =
      s.pending_guides ++ [{ mkPendingRecord g user now with localId := s.nextGuideId }] := by
  have hcond : ¬ ((s.isOnline && user.isSome) = true) := by rw [hoff]; simp
  refine ⟨?_, ?_, rfl, rfl, rfl, ?_, ?_⟩
  · unfold saveRoute
    rw [if_neg hcond]
    rfl
  · unfold saveRoute
    rw [if_neg hcond]
    exact (processEmailQueue_fields _ cfg em now).1
  · unfold saveTrailGuide
    rw [if_neg hcond]
    rfl
  · unfold saveTrailGuide
    rw [if_neg hcond]
    exact (processEmailQueue_fields _ cfg em now).2.1

/-- Witness for C4 at the offline empty store. -/
theorem claim_c4_witness :
    (saveRoute offState 42 (some demoUser) (some 7) cfgFull emTrue 3).2 =
      { localId := 1, cloudId := none } ∧
    ((saveRoute offState 42 (some demoUser) (some 7) cfgFull emTrue 3).1).pending_routes =
      offState.pending_routes ++
        [{ mkPendingRecord 42 (some demoUser) 3 with localId := offState.nextRouteId }] ∧
    (mkPendingRecord 42 (some demoUser) 3).status = "pending" ∧
    (mkPendingRecord 42 (some demoUser) 3).retryCount = 0 ∧
    (mkPendingRecord 42 (some demoUser) 3).cloudId = none ∧
    (saveTrailGuide offState 43 (some demoUser) (some 8) cfgFull emTrue 3).2 =
      { localId := 1, cloudId := none } ∧
    ((saveTrailGuide offState 43 (some demoUser) (some 8) cfgFull emTrue 3).1).pending_guides =
      offState.pending_guides ++
        [{ mkPendingRecord 43 (some demoUser) 3 with localId := offState.nextGuideId }] :=
  claim_c4_save_offline offState 42 43 (some demoUser) (some 7) (some 8) cfgFull emTrue 3 rfl

/-- Counterexample to C2 as stated: a photo (and a survey) with
`status = 'failed'` and `retryCount = 3` IS attempted again by the next
drain pass (its id appears in the attempt list), and a further failure
raises its `retryCount` to 4 — the loops skip only items whose status is
the terminal success status (`'uploaded'` / `'submitted'`). -/
theorem claim_c2_counterexample :
    (processPhotoQueue [failedPhoto] (fun _ => none) 1).2 = ["photo_1"] ∧
    (processPhotoQueue [failedPhoto] (fun _ => none) 1).1 =
      [{ failedPhoto with retryCount := 4 }] ∧
    (processSurveyQueue [failedSurvey] (fun _ => false) 1).2 = ["survey_1"] ∧
    (processSurveyQueue [failedSurvey] (fun _ => false) 1).1 =
      [{ failedSurvey with retryCount := 4 }] := by
  refine ⟨?_, ?_, ?_, ?_⟩ <;> decide

/-- Claim C2 as amended: a flat-queue item whose `retryCount` has reached
3 and whose status is `'failed'` is still attempted by every subsequent
drain pass (only terminal-success items are skipped); on a further failed
attempt its `retryCount` is incremented past 3 while its status remains
`'failed'`. -/
theorem claim_c2_failed_still_attempted
    (q : List QueuedPhoto) (p : QueuedPhoto) (orc : String → Option Nat) (now : Nat)
    (hp : p ∈ q) (hst : p.status = "failed") (hrc : 3 ≤ p.retryCount)
    (hfail : orc p.id = none)
    (sq : List QueuedSurvey) (sv : QueuedSurvey) (sorc : String → Bool)
    (hsv : sv ∈ sq) (hsst : sv.status = "failed") (hsrc : 3 ≤ sv.retryCount)
    (hsfail : sorc sv.id = false) :
    p.id ∈ (processPhotoQueue q orc now).2 ∧
    processPhotoItem orc now p = { p with retryCount := p.retryCount + 1 } ∧
    processPhotoItem orc now p ∈ (processPhotoQueue q orc now).1 ∧
    sv.id ∈ (processSurveyQueue sq sorc now).2 ∧
    processSurveyItem sorc now sv = { sv with retryCount := sv.retryCount + 1 } ∧
    processSurveyItem sorc now sv ∈ (processSurveyQueue sq sorc now).1 := by
  have hqne : ¬ (q.isEmpty = true) := by
    rw [List.isEmpty_eq_false.mpr (List.ne_nil_of_mem hp)]
    exact Bool.false_ne_true
  have hsqne : ¬ (sq.isEmpty = true) := by
    rw [List.isEmpty_eq_false.mpr (List.ne_nil_of_mem hsv)]
    exact Bool.false_ne_true
  have hpitem : processPhotoItem orc now p = { p with retryCount := p.retryCount + 1 } := by
    unfold processPhotoItem
    rw [if_neg (by rw [hst]; decide), hfail]
    show ({ p with retryCount := p.retryCount + 1, status := (if p.retryCount + 1 ≥ 3 then "failed" else p.status) } : QueuedPhoto) = _
    rw [if_pos (by omega), hst]
  have hsitem : processSurveyItem sorc now sv = { sv with retryCount := sv.retryCount + 1 } := by
    unfold processSurveyItem
    rw [if_neg (by rw [hsst]; decide), hsfail, if_neg (by simp)]
    show ({ sv with retryCount := sv.retryCount + 1, status := (if sv.retryCount + 1 ≥ 3 then "failed" else sv.status) } : QueuedSurvey) = _
    rw [if_pos (by omega), hsst]
  refine ⟨?_, hpitem, ?_, ?_, hsitem, ?_⟩
  · unfold processPhotoQueue
    rw [if_neg hqne]
    exact List.mem_map.mpr
      ⟨p, List.mem_filter.mpr ⟨hp, by rw [hst]; decide⟩, rfl⟩
  · unfold processPhotoQueue
    rw [if_neg hqne]
    exact List.mem_map.mpr ⟨p, hp, rfl⟩
  · unfold processSurveyQueue
    rw [if_neg hsqne]
    exact List.mem_map.mpr
      ⟨sv, List.mem_filter.mpr ⟨hsv, by rw [hsst]; decide⟩, rfl⟩
  · unfold processSurveyQueue
    rw [if_neg hsqne]
    exact List.mem_map.mpr ⟨sv, hsv, rfl⟩

/-- Witness for the amended C2 at the capped items. -/
theorem claim_c2_witness :
    failedPhoto.id ∈ (processPhotoQueue [failedPhoto] (fun _ => none) 1).2 ∧
    processPhotoItem (fun _ => none) 1 failedPhoto =
      { failedPhoto with retryCount := failedPhoto.retryCount + 1 } ∧
    processPhotoItem (fun _ => none) 1 failedPhoto ∈
      (processPhotoQueue [failedPhoto] (fun _ => none) 1).1 ∧
    failedSurvey.id ∈ (processSurveyQueue [failedSurvey] (fun _ => false) 1).2 ∧
    processSurveyItem (fun _ => false) 1 failedSurvey =
      { failedSurvey with retryCount := failedSurvey.retryCount + 1 } ∧
    processSurveyItem (fun _ => false) 1 failedSurvey ∈
      (processSurveyQueue [failedSurvey] (fun _ => false) 1).1 :=
  claim_c2_failed_still_attempted [failedPhoto] failedPhoto (fun _ => none) 1
    (by decide) rfl (by decide) rfl
    [failedSurvey] failedSurvey (fun _ => false) (by decide) rfl (by decide) rfl

/-- Claim C7 shown false on the code (code bug): the delayed cleanup
writes the filter of the drain-time snapshot over the whole persisted
slot, so a still-pending photo (`photoB`) enqueued after the drain pass
read the sequence and before the timer fired is dropped from the
persisted sequence — the prune removes more than the terminal-success
items. -/
theorem claim_c7_prune_loses_concurrent_enqueue :
    photoB ∈ c7PersistedBeforePrune ∧
    photoB.status = "pending" ∧
    c7PersistedAfterPrune = [] ∧
    ¬ photoB ∈ c7PersistedAfterPrune := by
  refine ⟨?_, ?_, ?_, ?_⟩ <;> decide

/-- Counterexample to C8 as stated: on an offline→online flip with one
pending item the poll fallback does not perform the push handler's
sequence — it never schedules the sync after the 3000 ms settle delay,
and instead performs an immediate `syncAllPending` call. -/
theorem claim_c8_counterexample :
    pollTick false true 1 ≠ handleOnlineEvent 1 ∧
    TriggerAction.scheduleSyncAllAfter 3000 ∈ handleOnlineEvent 1 ∧
    ¬ TriggerAction.scheduleSyncAllAfter 3000 ∈ pollTick false true 1 ∧
    TriggerAction.syncAllNow ∈ pollTick false true 1 := by
  refine ⟨?_, ?_, ?_, ?_⟩ <;> decide

/-- Claim C8 as amended: the poll fallback, upon detecting an
offline→online flip with N > 0 pending items, shows the pending
notification, performs exactly one `syncAllPending` invocation —
immediately, not scheduled after the settle delay — and processes the
email queue; a tick without a flip performs nothing. -/
theorem claim_c8_poll_immediate (wasOnline : Bool) (n : Nat) (hn : 0 < n) :
    pollTick false true n =
      [TriggerAction.showPendingNotification n, TriggerAction.syncAllNow,
       TriggerAction.processEmailQueueNow] ∧
    (pollTick false true n).count TriggerAction.syncAllNow = 1 ∧
    TriggerAction.processEmailQueueNow ∈ pollTick false true n ∧
    ¬ TriggerAction.scheduleSyncAllAfter 3000 ∈ pollTick false true n ∧
    pollTick true true n = [] ∧
    pollTick wasOnline false n = [] := by
  have h1 : pollTick false true n =
      [TriggerAction.showPendingNotification n, TriggerAction.syncAllNow,
       TriggerAction.processEmailQueueNow] := by
    unfold pollTick
    rw [if_pos (by decide), if_pos hn]
    rfl
  refine ⟨h1, ?_, ?_, ?_, ?_, ?_⟩
  · rw [h1]
    rfl
  · rw [h1]
    exact List.mem_cons_of_mem _ (List.mem_cons_of_mem _ (List.mem_cons_self _ _))
  · rw [h1]
    intro hmem
    rcases List.mem_cons.mp hmem with h | h
    · cases h
    · rcases List.mem_cons.mp h with h' | h'
      · cases h'
      · rcases List.mem_cons.mp h' with h'' | h''
        · cases h''
        · cases h''
  · unfold pollTick
    rw [if_neg (by decide)]
  · unfold pollTick
    cases wasOnline <;> rw [if_neg (by decide)]

/-- Witness for the amended C8 at two pending items. -/
theorem claim_c8_witness :
    pollTick false true 2 =
      [TriggerAction.showPendingNotification 2, TriggerAction.syncAllNow,
       TriggerAction.processEmailQueueNow] ∧
    (pollTick false true 2).count TriggerAction.syncAllNow = 1 ∧
    TriggerAction.processEmailQueueNow ∈ pollTick false true 2 ∧
    ¬ TriggerAction.scheduleSyncAllAfter 3000 ∈ pollTick false true 2 ∧
    pollTick true true 2 = [] ∧
    pollTick true false 2 = [] :=
  claim_c8_poll_immediate true 2 (by decide)

/-- Claim C9 (implicit): if the EmailJS library is loaded
(`emailJsLoaded = true`) and the device is online but the relay
configuration is incomplete, a drain pass over the email queue invokes no
relay-send operation (the invocation list is empty) yet marks every
eligible entry (`sent = false`, `retryCount < 3`) as `sent = true` with a
`sentAt` timestamp — `sent = true` does not imply delivery. -/
theorem claim_c9_incomplete_config_marks_sent (s : SyncState) (cfg : EmailJSConfig)
    (em : Nat → Bool) (now : Nat)
    (hload : s.emailJsLoaded = true) (hon : s.isOnline = true)
    (hcfg : configComplete cfg = false)
    (hpw : s.email_queue.Pairwise (fun a b => ¬ a.id = b.id)) :
    (processEmailQueue s cfg em now).2 = [] ∧
    ∀ e ∈ s.email_queue, e.sent = false → e.retryCount < 3 →
      findEmail (processEmailQueue s cfg em now).1 e.id =
        some { e with sent := true, sentAt := some now } := by
  have hguard : ¬ ((!s.emailJsLoaded || !s.isOnline) = true) := by
    rw [hload, hon]
    simp
  constructor
  · unfold processEmailQueue
    rw [if_neg hguard]
    exact emailFold_sends_incomplete cfg em now hcfg _ _
  · intro e he hsent hrc
    unfold processEmailQueue
    rw [if_neg hguard]
    apply emailFold_marks cfg em now _ _ e []
    · exact List.mem_filter.mpr ⟨he, by rw [hsent]; rfl⟩
    · exact List.Pairwise.sublist (List.filter_sublist _) hpw
    · exact find?_email_pairwise_mem s.email_queue e hpw he
    · exact hrc
    · unfold sendEmailBackup
      rw [if_pos (by rw [hcfg]; rfl)]

/-- Witness for C9 at a loaded-but-unconfigured relay with one unsent
entry. -/
theorem claim_c9_witness :
    (processEmailQueue emailDemoState cfg0 emTrue 9).2 = [] ∧
    findEmail (processEmailQueue emailDemoState cfg0 emTrue 9).1 1 =
      some { id := 1, type := "route", data := 42, dataLocalId := 1,
             timestamp := 0, sent := true, retryCount := 0, sentAt := some 9 } :=
  ⟨(claim_c9_incomplete_config_marks_sent emailDemoState cfg0 emTrue 9 rfl rfl rfl
      (by decide)).1,
   (claim_c9_incomplete_config_marks_sent emailDemoState cfg0 emTrue 9 rfl rfl rfl
      (by decide)).2
     { id := 1, type := "route", data := 42, dataLocalId := 1,
       timestamp := 0, sent := false, retryCount := 0, sentAt := none }
     (by decide) rfl (by decide)⟩

theorem processEmailQueue_sends_subset (s : SyncState) (cfg : EmailJSConfig) (em : Nat → Bool)
    (now : Nat) (x : Nat) (hx : x ∈ (processEmailQueue s cfg em now).2) :
    ∃ e ∈ s.email_queue.filter (fun e => !e.sent), x = e.id := by
  unfold processEmailQueue at hx
  split at hx
  · cases hx
  · rcases emailFold_sends_mem cfg em now _ _ x hx with h | h
    · cases h
    · exact h

theorem processEmailQueue_find_untouched (s : SyncState) (cfg : EmailJSConfig) (em : Nat → Bool)
    (now : Nat) (id : Nat)
    (h : ∀ e ∈ s.email_queue.filter (fun e => !e.sent), ¬ e.id = id) :
    findEmail (processEmailQueue s cfg em now).1 id = findEmail s id := by
  unfold processEmailQueue
  split
  · rfl
  · exact emailFold_find_not_mem cfg em now _ _ id h

/-- Claim C6: round-trip on the backup outbox.  After `queueEmailBackup`
creates an entry and a drain pass (`processEmailQueue`) sends it
successfully, the entry has `sent = true` (with `sentAt`); a second drain
pass does not invoke the relay-send operation for that entry again —
the drain selects only `sent = false` entries — and leaves the entry
unchanged. -/
theorem claim_c6_backup_roundtrip (s : SyncState) (cfg : EmailJSConfig) (em : Nat → Bool)
    (type : String) (data dataLocalId : Nat) (now now2 now3 : Nat)
    (hload : s.emailJsLoaded = true) (hon : s.isOnline = true)
    (hcfg : configComplete cfg = true) (hsend : em s.nextEmailId = true)
    (hfresh : ∀ e ∈ s.email_queue, e.id < s.nextEmailId)
    (hpw : s.email_queue.Pairwise (fun a b => ¬ a.id = b.id)) :
    s.nextEmailId ∈
      (processEmailQueue (queueEmailBackup s type data dataLocalId now) cfg em now2).2 ∧
    findEmail (processEmailQueue (queueEmailBackup s type data dataLocalId now)
        cfg em now2).1 s.nextEmailId =
      some { newEmailRecord s type data dataLocalId now with sent := true, sentAt := some now2 } ∧
    ¬ s.nextEmailId ∈
      (processEmailQueue (processEmailQueue (queueEmailBackup s type data dataLocalId now)
          cfg em now2).1 cfg em now3).2 ∧
    findEmail (processEmailQueue (processEmailQueue (queueEmailBackup s type data dataLocalId now)
        cfg em now2).1 cfg em now3).1 s.nextEmailId =
      findEmail (processEmailQueue (queueEmailBackup s type data dataLocalId now)
        cfg em now2).1 s.nextEmailId := by
  have hq : (queueEmailBackup s type data dataLocalId now).email_queue =
      s.email_queue ++ [newEmailRecord s type data dataLocalId now] := rfl
  have hmem1 : newEmailRecord s type data dataLocalId now ∈
      (queueEmailBackup s type data dataLocalId now).email_queue := by
    rw [hq]
    exact List.mem_append_right _ (List.mem_singleton.mpr rfl)
  have hpw1 : (queueEmailBackup s type data dataLocalId now).email_queue.Pairwise
      (fun a b => ¬ a.id = b.id) := by
    rw [hq, List.pairwise_append]
    refine ⟨hpw, List.pairwise_singleton _ _, ?_⟩
    intro a ha b hb
    rw [List.mem_singleton.mp hb]
    exact Nat.ne_of_lt (hfresh a ha)
  have hguard1 : ¬ ((!(queueEmailBackup s type data dataLocalId now).emailJsLoaded ||
      !(queueEmailBackup s type data dataLocalId now).isOnline) = true) := by
    show ¬ ((!s.emailJsLoaded || !s.isOnline) = true)
    rw [hload, hon]
    simp
  have hfind1 : findEmail (queueEmailBackup s type data dataLocalId now)
      (newEmailRecord s type data dataLocalId now).id =
      some (newEmailRecord s type data dataLocalId now) :=
    find?_email_pairwise_mem _ _ hpw1 hmem1
  have hsendE : sendEmailBackup cfg em (newEmailRecord s type data dataLocalId now) =
      some [(newEmailRecord s type data dataLocalId now).id] := by
    unfold sendEmailBackup
    rw [if_neg (by rw [hcfg]; simp),
        if_pos (show em (newEmailRecord s type data dataLocalId now).id = true from hsend)]
  have hfound : findEmail (processEmailQueue (queueEmailBackup s type data dataLocalId now)
      cfg em now2).1 s.nextEmailId =
      some { newEmailRecord s type data dataLocalId now with sent := true, sentAt := some now2 } := by
    unfold processEmailQueue
    rw [if_neg hguard1]
    exact emailFold_marks cfg em now2 _ _ (newEmailRecord s type data dataLocalId now) _
      (List.mem_filter.mpr ⟨hmem1, rfl⟩)
      (List.Pairwise.sublist (List.filter_sublist _) hpw1)
      hfind1 (show (0:Nat) < 3 by decide) hsendE
  have hd1fields := processEmailQueue_fields (queueEmailBackup s type data dataLocalId now)
    cfg em now2
  have hpwd1 : ((processEmailQueue (queueEmailBackup s type data dataLocalId now)
      cfg em now2).1).email_queue.Pairwise (fun a b => ¬ a.id = b.id) := by
    have h1 : (((processEmailQueue (queueEmailBackup s type data dataLocalId now)
        cfg em now2).1).email_queue.map EmailRecord.id).Pairwise (fun a b => ¬ a = b) := by
      rw [hd1fields.2.2.2.2.2]
      exact List.pairwise_map.mpr hpw1
    exact List.pairwise_map.mp h1
  have hmarkedmem : ({ newEmailRecord s type data dataLocalId now with
      sent := true, sentAt := some now2 } : EmailRecord) ∈
      ((processEmailQueue (queueEmailBackup s type data dataLocalId now)
        cfg em now2).1).email_queue :=
    List.mem_of_find?_eq_some hfound
  have hnosame : ∀ x ∈ ((processEmailQueue (queueEmailBackup s type data dataLocalId now)
      cfg em now2).1).email_queue.filter (fun e => !e.sent), ¬ x.id = s.nextEmailId := by
    intro x hx hcx
    have hx1 := (List.mem_filter.mp hx).1
    have hxsent := (List.mem_filter.mp hx).2
    have hxm : x = { newEmailRecord s type data dataLocalId now with
        sent := true, sentAt := some now2 } :=
      email_mem_unique _ hpwd1 x _ hx1 hmarkedmem (by rw [hcx]; rfl)
    rw [hxm] at hxsent
    exact Bool.false_ne_true hxsent
  refine ⟨?_, hfound, ?_, ?_⟩
  · unfold processEmailQueue
    rw [if_neg hguard1]
    exact emailFold_sends_of_mem cfg em now2 _ _ (newEmailRecord s type data dataLocalId now)
      (List.mem_filter.mpr ⟨hmem1, rfl⟩) (show (0:Nat) < 3 by decide) hsendE
  · intro hmem
    obtain ⟨e, he, hxe⟩ := processEmailQueue_sends_subset _ cfg em now3 _ hmem
    exact hnosame e he hxe.symm
  · exact processEmailQueue_find_untouched _ cfg em now3 _ hnosame

/-- Witness for C6 at a configured relay and one pre-existing entry. -/
theorem claim_c6_witness :
    (2 : Nat) ∈
      (processEmailQueue (queueEmailBackup emailDemoState "guide" 7 3 4) cfgFull emTrue 5).2 ∧
    findEmail (processEmailQueue (queueEmailBackup emailDemoState "guide" 7 3 4)
        cfgFull emTrue 5).1 2 =
      some { newEmailRecord emailDemoState "guide" 7 3 4 with sent := true, sentAt := some 5 } ∧
    ¬ (2 : Nat) ∈
      (processEmailQueue (processEmailQueue (queueEmailBackup emailDemoState "guide" 7 3 4)
          cfgFull emTrue 5).1 cfgFull emTrue 6).2 ∧
    findEmail (processEmailQueue (processEmailQueue (queueEmailBackup emailDemoState "guide" 7 3 4)
        cfgFull emTrue 5).1 cfgFull emTrue 6).1 2 =
      findEmail (processEmailQueue (queueEmailBackup emailDemoState "guide" 7 3 4)
        cfgFull emTrue 5).1 2 :=
  claim_c6_backup_roundtrip emailDemoState cfgFull emTrue "guide" 7 3 4 5 6
    rfl rfl (by decide) rfl (by decide) (by decide)

theorem findRoute_eq_of_routes (s1 s2 : SyncState) (h : s1.pending_routes = s2.pending_routes)
    (id : Nat) : findRoute s1 id = findRoute s2 id := by
  unfold findRoute
  rw [h]

theorem findGuide_eq_of_guides (s1 s2 : SyncState) (h : s1.pending_guides = s2.pending_guides)
    (id : Nat) : findGuide s1 id = findGuide s2 id := by
  unfold findGuide
  rw [h]

theorem syncAllPending_run (s : SyncState) (u : User) (orR orG : Nat → Option Nat)
    (cfg : EmailJSConfig) (em : Nat → Bool) (now : Nat)
    (hflag : s.syncInProgress = false) (hon : s.isOnline = true)
    (hne : ¬ (((pendingOnly s.pending_routes).length +
      (pendingOnly s.pending_guides).length == 0) = true)) :
    syncAllPending s (some u) orR orG cfg em now =
      ({ (processEmailQueue (List.foldl (syncGuideStep orG now)
            (List.foldl (syncRouteStep orR now) ({ s with syncInProgress := true }, [])
              (pendingOnly s.pending_routes)) (pendingOnly s.pending_guides)).1
            cfg em now).1 with syncInProgress := false },
       SyncReport.completed
         (((List.foldl (syncGuideStep orG now)
            (List.foldl (syncRouteStep orR now) ({ s with syncInProgress := true }, [])
              (pendingOnly s.pending_routes)) (pendingOnly s.pending_guides)).2).countP
            RemoteOp.isUploadSuccess)
         (((List.foldl (syncGuideStep orG now)
            (List.foldl (syncRouteStep orR now) ({ s with syncInProgress := true }, [])
              (pendingOnly s.pending_routes)) (pendingOnly s.pending_guides)).2).countP
            (fun o => !o.isUploadSuccess)),
       (List.foldl (syncGuideStep orG now)
          (List.foldl (syncRouteStep orR now) ({ s with syncInProgress := true }, [])
            (pendingOnly s.pending_routes)) (pendingOnly s.pending_guides)).2 ++
         (processEmailQueue (List.foldl (syncGuideStep orG now)
            (List.foldl (syncRouteStep orR now) ({ s with syncInProgress := true }, [])
              (pendingOnly s.pending_routes)) (pendingOnly s.pending_guides)).1
            cfg em now).2.map RemoteOp.emailSend) := by
  simp only [syncAllPending]
  rw [if_neg (by rw [hflag]; exact Bool.false_ne_true), if_neg (by rw [hon]; simp),
      if_neg hne]

/-- Claim C5: during a `syncAllPending` pass over pending routes and
guides, every pending record is attempted (one upload operation per
pending record appears in the pass's remote-operation list, so one
record's failure never prevents the rest of the batch from being
attempted), and each record whose remote write fails has exactly
`retryCount + 1` with `status` unchanged — still `'pending'` — in the
resulting store (no retry cap is applied). -/
theorem claim_c5_failure_isolation (s : SyncState) (u : User)
    (orR orG : Nat → Option Nat) (cfg : EmailJSConfig) (em : Nat → Bool) (now : Nat)
    (hflag : s.syncInProgress = false) (hon : s.isOnline = true)
    (hpwR : s.pending_routes.Pairwise (fun a b => ¬ a.localId = b.localId))
    (hpwG : s.pending_guides.Pairwise (fun a b => ¬ a.localId = b.localId)) :
    (∀ r ∈ s.pending_routes, r.status = "pending" →
      RemoteOp.routeUpload r.localId (orR r.localId).isSome ∈
        (syncAllPending s (some u) orR orG cfg em now).2.2) ∧
    (∀ g ∈ s.pending_guides, g.status = "pending" →
      RemoteOp.guideUpload g.localId (orG g.localId).isSome ∈
        (syncAllPending s (some u) orR orG cfg em now).2.2) ∧
    (∀ r ∈ s.pending_routes, r.status = "pending" → orR r.localId = none →
      findRoute (syncAllPending s (some u) orR orG cfg em now).1 r.localId =
        some { r with retryCount := r.retryCount + 1, lastRetryAt := some now }) ∧
    (∀ g ∈ s.pending_guides, g.status = "pending" → orG g.localId = none →
      findGuide (syncAllPending s (some u) orR orG cfg em now).1 g.localId =
        some { g with retryCount := g.retryCount + 1, lastRetryAt := some now }) := by
  by_cases hz : (((pendingOnly s.pending_routes).length +
      (pendingOnly s.pending_guides).length == 0) = true)
  · have hsum : (pendingOnly s.pending_routes).length +
        (pendingOnly s.pending_guides).length = 0 := beq_iff_eq.mp hz
    have hzr : pendingOnly s.pending_routes = [] := List.length_eq_zero.mp (by omega)
    have hzg : pendingOnly s.pending_guides = [] := List.length_eq_zero.mp (by omega)
    refine ⟨?_, ?_, ?_, ?_⟩
    · intro r hr hst
      exact absurd (hzr ▸ List.mem_filter.mpr ⟨hr, by rw [hst]; rfl⟩) (List.not_mem_nil r)
    · intro g hg hst
      exact absurd (hzg ▸ List.mem_filter.mpr ⟨hg, by rw [hst]; rfl⟩) (List.not_mem_nil g)
    · intro r hr hst hfail
      exact absurd (hzr ▸ List.mem_filter.mpr ⟨hr, by rw [hst]; rfl⟩) (List.not_mem_nil r)
    · intro g hg hst hfail
      exact absurd (hzg ▸ List.mem_filter.mpr ⟨hg, by rw [hst]; rfl⟩) (List.not_mem_nil g)
  · rw [syncAllPending_run s u orR orG cfg em now hflag hon hz]
    set accR := List.foldl (syncRouteStep orR now)
      ({ s with syncInProgress := true }, ([] : List RemoteOp))
      (pendingOnly s.pending_routes) with haccR
    set accG := List.foldl (syncGuideStep orG now) accR (pendingOnly s.pending_guides)
      with haccG
    set emailRes := processEmailQueue accG.1 cfg em now with hemailRes
    have hrf := syncRouteFold_fields orR now (pendingOnly s.pending_routes)
      ({ s with syncInProgress := true }, ([] : List RemoteOp))
    have hgf := syncGuideFold_fields orG now (pendingOnly s.pending_guides) accR
    have hpf := processEmailQueue_fields accG.1 cfg em now
    refine ⟨?_, ?_, ?_, ?_⟩
    · intro r hr hst
      have hmemf : r ∈ pendingOnly s.pending_routes :=
        List.mem_filter.mpr ⟨hr, by rw [hst]; rfl⟩
      exact List.mem_append_left _
        (syncGuideFold_ops_mono orG now _ accR _
          (syncRouteFold_ops_mem orR now _ _ r hmemf))
    · intro g hg hst
      have hmemf : g ∈ pendingOnly s.pending_guides :=
        List.mem_filter.mpr ⟨hg, by rw [hst]; rfl⟩
      exact List.mem_append_left _ (syncGuideFold_ops_mem orG now _ accR g hmemf)
    · intro r hr hst hfail
      have hmemf : r ∈ pendingOnly s.pending_routes :=
        List.mem_filter.mpr ⟨hr, by rw [hst]; rfl⟩
      have hpwf : (pendingOnly s.pending_routes).Pairwise
          (fun a b => ¬ a.localId = b.localId) :=
        List.Pairwise.sublist (List.filter_sublist _) hpwR
      have hfind0 : findRoute ({ s with syncInProgress := true } : SyncState) r.localId =
          some r := find?_pairwise_mem s.pending_routes r hpwR hr
      have hfoldR := syncRouteFold_find_failed orR now (pendingOnly s.pending_routes)
        ({ s with syncInProgress := true }, []) r hmemf hpwf hfind0 hfail
      have hchain : findRoute ({ emailRes.1 with syncInProgress := false } : SyncState)
          r.localId = findRoute accR.1 r.localId := by
        apply findRoute_eq_of_routes
        show emailRes.1.pending_routes = accR.1.pending_routes
        rw [hpf.1, hgf.1]
      rw [hchain]
      exact hfoldR
    · intro g hg hst hfail
      have hmemf : g ∈ pendingOnly s.pending_guides :=
        List.mem_filter.mpr ⟨hg, by rw [hst]; rfl⟩
      have hpwf : (pendingOnly s.pending_guides).Pairwise
          (fun a b => ¬ a.localId = b.localId) :=
        List.Pairwise.sublist (List.filter_sublist _) hpwG
      have hfind0 : findGuide ({ s with syncInProgress := true } : SyncState) g.localId =
          some g := find?_pairwise_mem s.pending_guides g hpwG hg
      have hfindaccR : findGuide accR.1 g.localId = some g := by
        rw [findGuide_eq_of_guides accR.1 ({ s with syncInProgress := true } : SyncState)
          hrf.1 g.localId]
        exact hfind0
      have hfoldG := syncGuideFold_find_failed orG now (pendingOnly s.pending_guides)
        accR g hmemf hpwf hfindaccR hfail
      have hchain : findGuide ({ emailRes.1 with syncInProgress := false } : SyncState)
          g.localId = findGuide accG.1 g.localId := by
        apply findGuide_eq_of_guides
        show emailRes.1.pending_guides = accG.1.pending_guides
        rw [hpf.2.1]
      rw [hchain]
      exact hfoldG

/-- Witness for C5: a pass over one pending route whose upload throws. -/
theorem claim_c5_witness :
    RemoteOp.routeUpload demoRoute.localId (orNone demoRoute.localId).isSome ∈
      (syncAllPending demoState (some demoUser) orNone orSome cfgFull emTrue 7).2.2 ∧
    findRoute (syncAllPending demoState (some demoUser) orNone orSome cfgFull emTrue 7).1
        demoRoute.localId =
      some { demoRoute with retryCount := demoRoute.retryCount + 1, lastRetryAt := some 7 } :=
  ⟨(claim_c5_failure_isolation demoState demoUser orNone orSome cfgFull emTrue 7
      rfl rfl (by decide) (by decide)).1 demoRoute (by decide) rfl,
   (claim_c5_failure_isolation demoState demoUser orNone orSome cfgFull emTrue 7
      rfl rfl (by decide) (by decide)).2.2.1 demoRoute (by decide) rfl rfl⟩

/-- Claim C3: `syncAllPending` invoked while `syncInProgress` is set
returns immediately with the already-in-progress signal, an unchanged
state, and an empty remote-operation list (no remote writes, no store
mutations); and every state an executing pass exposes at its suspension
points (`syncAllTrace`) has `syncInProgress = true` and causes any second
invocation, with any arguments, to be exactly that no-op — so in any
interleaving of two invocations only the first pass performs remote
writes. -/
theorem claim_c3_single_flight :
    (∀ (s : SyncState) (user : Option User) (orR orG : Nat → Option Nat)
        (cfg : EmailJSConfig) (em : Nat → Bool) (now : Nat),
      s.syncInProgress = true →
        syncAllPending s user orR orG cfg em now = (s, SyncReport.alreadyInProgress, [])) ∧
    (∀ (s : SyncState) (user : Option User) (orR orG : Nat → Option Nat)
        (cfg : EmailJSConfig) (em : Nat → Bool) (now : Nat) (t : SyncState),
      t ∈ syncAllTrace s user orR orG cfg em now →
        t.syncInProgress = true ∧
        ∀ (user2 : Option User) (orR2 orG2 : Nat → Option Nat)
          (cfg2 : EmailJSConfig) (em2 : Nat → Bool) (now2 : Nat),
          syncAllPending t user2 orR2 orG2 cfg2 em2 now2 =
            (t, SyncReport.alreadyInProgress, [])) := by
  have hpart1 : ∀ (s : SyncState) (user : Option User) (orR orG : Nat → Option Nat)
      (cfg : EmailJSConfig) (em : Nat → Bool) (now : Nat),
      s.syncInProgress = true →
        syncAllPending s user orR orG cfg em now = (s, SyncReport.alreadyInProgress, []) := by
    intro s user orR orG cfg em now h
    unfold syncAllPending
    rw [if_pos h]
  refine ⟨hpart1, ?_⟩
  intro s user orR orG cfg em now t ht
  have hflag : t.syncInProgress = true := by
    simp only [syncAllTrace] at ht
    by_cases h1 : s.syncInProgress = true
    · rw [if_pos h1] at ht
      cases ht
    · rw [if_neg h1] at ht
      by_cases h2 : (!s.isOnline) = true
      · rw [if_pos h2] at ht
        cases ht
      · rw [if_neg h2] at ht
        cases user with
        | none =>
          rcases List.mem_cons.mp ht with rfl | h
          · rfl
          · cases h
        | some u0 =>
          by_cases h3 : (((pendingOnly s.pending_routes).length +
              (pendingOnly s.pending_guides).length == 0) = true)
          · rw [if_pos h3] at ht
            rcases List.mem_cons.mp ht with rfl | h
            · rfl
            · cases h
          · rw [if_neg h3] at ht
            have haccRflag : (List.foldl (syncRouteStep orR now)
                ({ s with syncInProgress := true }, ([] : List RemoteOp))
                (pendingOnly s.pending_routes)).1.syncInProgress = true :=
              foldl_all_prop _ (fun y => y.1.syncInProgress = true) _ _ rfl
                (fun y a hy => ((syncRouteStep_fields orR now y a).2.2.1).trans hy)
            have haccGflag : (List.foldl (syncGuideStep orG now)
                (List.foldl (syncRouteStep orR now)
                  ({ s with syncInProgress := true }, ([] : List RemoteOp))
                  (pendingOnly s.pending_routes))
                (pendingOnly s.pending_guides)).1.syncInProgress = true :=
              foldl_all_prop _ (fun y => y.1.syncInProgress = true) _ _ haccRflag
                (fun y a hy => ((syncGuideStep_fields orG now y a).2.2.1).trans hy)
            rcases List.mem_append.mp ht with h | h
            · obtain ⟨x, hx, hxt⟩ := List.mem_map.mp h
              have hxflag : x.1.syncInProgress = true := by
                rcases List.mem_append.mp hx with hx' | hx'
                · exact scanl_all_prop _ (fun y => y.1.syncInProgress = true) _ _ rfl
                    (fun y a hy => ((syncRouteStep_fields orR now y a).2.2.1).trans hy) x hx'
                · exact scanl_all_prop _ (fun y => y.1.syncInProgress = true) _ _ haccRflag
                    (fun y a hy => ((syncGuideStep_fields orG now y a).2.2.1).trans hy) x hx'
              rw [← hxt]
              exact hxflag
            · rcases List.mem_cons.mp h with rfl | h'
              · exact ((processEmailQueue_fields _ cfg em now).2.2.1).trans haccGflag
              · cases h'
  exact ⟨hflag, fun user2 orR2 orG2 cfg2 em2 now2 =>
    hpart1 t user2 orR2 orG2 cfg2 em2 now2 hflag⟩

/-- Witness for C3: a concrete flagged state is a no-op target, and the
head of a concrete running pass's trace carries the flag. -/
theorem claim_c3_witness :
    flaggedState.syncInProgress = true ∧
    syncAllPending flaggedState none orNone orNone cfg0 emTrue 1 =
      (flaggedState, SyncReport.alreadyInProgress, []) := by
  have h := claim_c3_single_flight.2 demoState (some demoUser) orSome orSome cfgFull emTrue 0
    flaggedState (by decide)
  exact ⟨h.1, h.2 none orNone orNone cfg0 emTrue 1⟩
